import Mathlib

/-!
Verification development for the twincity-ui event-normalization and
agent-navigation pipeline.

The TypeScript sources are embedded shallowly:

* JavaScript numbers are modelled as exact rationals (`ℚ`).  All the
  properties verified here concern control flow, ordering and interval
  membership, none of which depends on rounding of binary floating point.
* A raw feed record (`unknown` in TypeScript) is modelled by the inductive
  `JVal` of JSON-like values; a missing key is `Option.none`.
* JavaScript built-ins that are not part of the repository are modelled
  explicitly: `String.prototype.trim` as `jsTrim`, `Math.round` as
  `jsRound`, and so on.  `Date.parse`, `Date.now`, `Number(string)`,
  `Math.cos`/`sin`/`atan2`/`hypot` and the helpers of the repository's
  `lib/geo.ts` / `lib/homography.ts` (which are not among the provided
  source files) enter through explicit environment records, so every
  theorem is stated relative to an arbitrary such environment.
* The zone map and camera calibration JSON files are consumed as
  already-parsed data; they are fields of the environment as well.
-/

namespace TwinCity

/-- Math.round: JavaScript rounds half away from zero towards plus
infinity, i.e. `⌊x + 1/2⌋`. -/
def jsRound (q : ℚ) : ℤ := ⌊q + 1/2⌋

/-- clampRange from the normalizer source: `Math.max(min, Math.min(max, value))`. -/
def clampRange (value minV maxV : ℚ) : ℚ := max minV (min maxV value)

/-- clamp01 from the sync page source: `Math.max(0, Math.min(1, value))`. -/
def clamp01 (value : ℚ) : ℚ := max 0 (min 1 value)

/-- String.prototype.trim, modelled structurally on the character list
(strip leading and trailing whitespace). -/
def jsTrimList (l : List Char) : List Char :=
  ((l.dropWhile Char.isWhitespace).reverse.dropWhile Char.isWhitespace).reverse

/-- String.prototype.trim on strings. -/
def jsTrim (s : String) : String := String.mk (jsTrimList s.data)

/-- String.prototype.toLowerCase (the strings involved are ASCII). -/
def jsToLower (s : String) : String := String.mk (s.data.map Char.toLower)

/-- String.prototype.includes: substring containment. -/
def jsIncludes (s sub : String) : Bool :=
  s.data.tails.any (fun t => sub.data.isPrefixOf t)

/-- An axis-aligned bounding box in normalized coordinates. -/
structure Bounds where
  minX : ℚ
  maxX : ℚ
  minY : ℚ
  maxY : ℚ
deriving DecidableEq

/-- pointInBounds from the normalizer source (identical copies exist in the
map components): inside the box enlarged by `padding` on every side. -/
def pointInBounds (x y : ℚ) (b : Bounds) (padding : ℚ) : Bool :=
  decide (b.minX - padding ≤ x) && decide (x ≤ b.maxX + padding) &&
    decide (b.minY - padding ≤ y) && decide (y ≤ b.maxY + padding)

/-- Sentinel standing for JavaScript `Infinity` in `polygonBounds` of an
empty vertex list (`Math.min()` with no arguments).  Every coordinate this
development manipulates is numerically far smaller. -/
def boundsInf : ℚ := 1000000000

/-- polygonBounds from the sources: axis-aligned bounds of a vertex list.
On an empty list JavaScript produces `±Infinity`; the sentinel
`boundsInf` stands for that value. -/
def polygonBounds (points : List (ℚ × ℚ)) : Bounds :=
  { minX := (points.map Prod.fst).foldl min boundsInf
    maxX := (points.map Prod.fst).foldl max (-boundsInf)
    minY := (points.map Prod.snd).foldl min boundsInf
    maxY := (points.map Prod.snd).foldl max (-boundsInf) }

/-- Modelled from the spec: `pointInPolygon` lives in the repository's
`lib/geo.ts`, which is not among the provided source files; the spec
describes it only as the point-in-polygon query of the zone geometry
model.  This is the standard even-odd ray-casting test.  None of the
theorems below depends on its internals: they treat it as an opaque
geometric predicate. -/
def pointInPolygon (x y : ℚ) (poly : List (ℚ × ℚ)) : Bool :=
  let prevs : List (ℚ × ℚ) :=
    match poly with
    | [] => []
    | p :: _ => (poly.getLast?.getD p) :: poly.dropLast
  (poly.zip prevs).foldl
    (fun inside e =>
      let xi := e.1.1
      let yi := e.1.2
      let xj := e.2.1
      let yj := e.2.2
      if (decide (yi > y) != decide (yj > y)) &&
          decide (x < (xj - xi) * (y - yi) / (yj - yi) + xi) then
        !inside
      else inside)
    false

/-- HOLE_PADDING_NORM = 0.024. -/
def HOLE_PADDING_NORM : ℚ := 24/1000

/-- ZONE_EDGE_PADDING_NORM = 0.012. -/
def ZONE_EDGE_PADDING_NORM : ℚ := 12/1000

/-- One zone of the precomputed ZONE_GEOMETRIES table. -/
structure ZoneGeometry where
  zoneId : String
  outer : List (ℚ × ℚ)
  outerBounds : Bounds
  holes : List (List (ℚ × ℚ))
  holeBounds : List Bounds
  centroid : ℚ × ℚ
deriving DecidableEq

/-- One zone row of the zone-map JSON as the normalizer reads it.  A
polygon vertex is an arbitrary-length number list because the source
filters for `pair.length >= 2`. -/
structure RawZone where
  zone_id : String
  polygon : List (List ℚ)
  holes : List (List (List ℚ))
  centroid : Option (List ℚ)

/-- First two entries of a raw vertex (`[xPx, yPx]`). -/
def pairOf (p : List ℚ) : ℚ × ℚ := (p.headD 0, (p.drop 1).headD 0)

/-- One `Map.set`: replace the value in place when the key is present
(keeping its first-insertion position), append otherwise. -/
def jsMapUpsert {α : Type} (m : List (String × α)) (k : String) (v : α) :
    List (String × α) :=
  if m.any (fun p => p.1 == k) then
    m.map (fun p => if p.1 == k then (k, v) else p)
  else m ++ [(k, v)]

/-- A JavaScript `Map` built from an entry list: keys keep their
first-insertion position, the last value for a key wins. -/
def jsMap {α : Type} (l : List (String × α)) : List (String × α) :=
  l.foldl (fun m p => jsMapUpsert m p.1 p.2) []

/-- `Map.get` on an entry list whose keys are already deduplicated. -/
def jsMapGet {α : Type} (m : List (String × α)) (k : String) : Option α :=
  (m.find? (fun p => p.1 == k)).map Prod.snd

/-- Lookup with the semantics of a JavaScript `Map` built from an entry
list: the last entry with the key wins. -/
def lookupLast {α : Type} (l : List (String × α)) (k : String) : Option α :=
  (l.filter (fun p => p.1 == k)).getLast?.map Prod.snd

/-- The ZONE_CENTROIDS table: zones carrying an explicit centroid,
normalized by the map pixel size and clamped to the unit square. -/
def buildZoneCentroids (zones : List RawZone) (w h : ℚ) :
    List (String × (ℚ × ℚ)) :=
  (zones.filter (fun z => match z.centroid with
      | some c => decide (c.length ≥ 2)
      | none => false)).map
    (fun z =>
      let c := z.centroid.getD []
      (z.zone_id,
        (clampRange (c.headD 0 / w) 0 1, clampRange ((c.drop 1).headD 0 / h) 0 1)))

/-- The ZONE_GEOMETRIES table built from the zone-map rows (normalizer
module initialization). -/
def buildZoneGeometries (zones : List RawZone) (w h : ℚ) : List ZoneGeometry :=
  let centroids := buildZoneCentroids zones w h
  zones.map (fun z =>
    let outer := (z.polygon.filter (fun p => decide (p.length ≥ 2))).map
      (fun p => ((pairOf p).1 / w, (pairOf p).2 / h))
    let holes := z.holes.map (fun hole =>
      (hole.filter (fun p => decide (p.length ≥ 2))).map
        (fun p => ((pairOf p).1 / w, (pairOf p).2 / h)))
    { zoneId := z.zone_id
      outer := outer
      outerBounds := polygonBounds outer
      holes := holes
      holeBounds := holes.map polygonBounds
      centroid := (lookupLast centroids z.zone_id).getD (1/2, 1/2) })

/-- A declared camera frame size. -/
structure CameraFrame where
  width : ℚ
  height : ℚ

/-- Everything external to the normalizer source file: JavaScript
built-ins (`Date`, `Number(string)`), the helpers of the missing
`lib/geo.ts` / `lib/homography.ts`, and the parsed configuration JSON.
`dateParse` and `jsNumber` return `none` where JavaScript yields `NaN`. -/
structure Env where
  nowMs : ℚ
  dateParse : String → Option ℚ
  jsNumber : String → Option ℚ
  mapW : ℚ
  mapH : ℚ
  worldW : ℚ
  worldD : ℚ
  worldOX : ℚ
  worldOZ : ℚ
  mapNormToWorldNorm : ℚ → ℚ → ℚ × ℚ
  worldNormToMapNorm : ℚ → ℚ → ℚ × ℚ
  applyHomographyQ : List ℚ → ℚ → ℚ → Option (ℚ × ℚ)
  cameraHomography : String → Option (List ℚ)
  cameraFrame : String → Option CameraFrame
  zones : List RawZone

/-- ZONE_GEOMETRIES for an environment. -/
def zoneGeometries (env : Env) : List ZoneGeometry :=
  buildZoneGeometries env.zones env.mapW env.mapH

/-- ZONE_GEOMETRY_BY_ID.get (a JavaScript Map: last entry wins). -/
def zoneGeometryById (env : Env) (zoneId : String) : Option ZoneGeometry :=
  lookupLast ((zoneGeometries env).map (fun g => (g.zoneId, g))) zoneId

/-- ZONE_CENTROIDS.get. -/
def zoneCentroid (env : Env) (zoneId : String) : Option (ℚ × ℚ) :=
  lookupLast (buildZoneCentroids env.zones env.mapW env.mapH) zoneId

/-- ZONE_IDS.has. -/
def zoneIdsHas (env : Env) (zoneId : String) : Bool :=
  env.zones.any (fun z => z.zone_id == zoneId)

/-- GENERIC_ZONE_IDS.has (the argument is already lower-cased by the
caller). -/
def genericZoneIdsHas (s : String) : Bool :=
  ["store", "site", "shop", "global", "all"].contains s

/-- ALL_HOLES_NORM. -/
def allHolesNorm (env : Env) : List (List (ℚ × ℚ)) :=
  (zoneGeometries env).flatMap (fun z => z.holes)

/-- ALL_HOLE_BOUNDS. -/
def allHoleBounds (env : Env) : List Bounds :=
  (zoneGeometries env).flatMap (fun z => z.holeBounds)

/-- pointInZoneWalkable from the normalizer source: inside the outer
polygon, clear of the edge-padded outer bounds, outside every hole
polygon and outside every padded hole bounding box. -/
def pointInZoneWalkable (x y : ℚ) (zone : ZoneGeometry) : Bool :=
  if !pointInPolygon x y zone.outer then false
  else if decide (ZONE_EDGE_PADDING_NORM > 0) &&
      !pointInBounds x y zone.outerBounds (-ZONE_EDGE_PADDING_NORM) then false
  else if zone.holes.any (fun hole => pointInPolygon x y hole) then false
  else !(zone.holeBounds.any (fun b => pointInBounds x y b HOLE_PADDING_NORM))

/-- Consecutive integers `lo..hi` (empty when `hi < lo`). -/
def intRange (lo hi : ℤ) : List ℤ :=
  (List.range (hi + 1 - lo).toNat).map (fun k => lo + k)

/-- The probe points of spiral-snap ring `ring`, in the order the source
visits them: the top and bottom strips interleaved over
`i ∈ [-ring, ring]`, then the left and right strips interleaved over
`j ∈ [-ring+1, ring-1]`.  Probes are raw; `ringTest` clamps them. -/
def ringProbes (x0 y0 step : ℚ) (ring : ℕ) : List (ℚ × ℚ) :=
  let ringStep : ℚ := (ring : ℚ) * step
  (intRange (-(ring : ℤ)) ring).flatMap
      (fun i => [(x0 + i * step, y0 - ringStep), (x0 + i * step, y0 + ringStep)]) ++
    (intRange (-(ring : ℤ) + 1) ((ring : ℤ) - 1)).flatMap
      (fun j => [(x0 - ringStep, y0 + j * step), (x0 + ringStep, y0 + j * step)])

/-- The `test` closure of spiralSnap: clamp the probe to the unit square,
keep it when walkable and strictly closer (squared distance to the
origin) than the best so far.  `none` is the initial
`bestDist2 = Infinity` state. -/
def ringTest (x0 y0 : ℚ) (isWalkable : ℚ → ℚ → Bool)
    (st : Option (ℚ × ℚ × ℚ)) (p : ℚ × ℚ) : Option (ℚ × ℚ × ℚ) :=
  let cx := clampRange p.1 0 1
  let cy := clampRange p.2 0 1
  if !isWalkable cx cy then st
  else
    let dist2 := (cx - x0) * (cx - x0) + (cy - y0) * (cy - y0)
    match st with
    | none => some (cx, cy, dist2)
    | some (bx, bcy, bd) =>
        if dist2 < bd then some (cx, cy, dist2) else some (bx, bcy, bd)

/-- One ring iteration of spiralSnap: the best walkable clamped probe of
the ring, `none` when the ring has no walkable probe. -/
def ringBest (x0 y0 step : ℚ) (isWalkable : ℚ → ℚ → Bool) (ring : ℕ) :
    Option (ℚ × ℚ) :=
  ((ringProbes x0 y0 step ring).foldl (ringTest x0 y0 isWalkable) none).map
    (fun b => (b.1, b.2.1))

/-- The ring loop of spiralSnap, starting at ring `ring` with `fuel`
rings left to try. -/
def spiralAux (x0 y0 : ℚ) (isWalkable : ℚ → ℚ → Bool) (step : ℚ) :
    ℕ → ℕ → Option (ℚ × ℚ)
  | _, 0 => none
  | ring, fuel + 1 =>
      match ringBest x0 y0 step isWalkable ring with
      | some p => some p
      | none => spiralAux x0 y0 isWalkable step (ring + 1) fuel

/-- spiralSnap from the normalizer source, with its default arguments
`step = 0.003` and `maxRings = 60`. -/
def spiralSnap (x0 y0 : ℚ) (isWalkable : ℚ → ℚ → Bool)
    (step : ℚ := 3/1000) (maxRings : ℕ := 60) : Option (ℚ × ℚ) :=
  spiralAux x0 y0 isWalkable step 1 maxRings

/-- The NormalizedCoordinates record of the normalizer source. -/
structure NormalizedCoordinates where
  x : ℚ
  y : ℚ
  worldX : Option ℚ := none
  worldZ : Option ℚ := none
deriving DecidableEq

/-- toWorldFromNorm from the normalizer source. -/
def toWorldFromNorm (env : Env) (x y : ℚ) : ℚ × ℚ :=
  let worldNorm := env.mapNormToWorldNorm x y
  (env.worldOX + worldNorm.1 * env.worldW, env.worldOZ + worldNorm.2 * env.worldD)

/-- The walkability predicate of snapCoordinatesToFloor's unknown-zone
branch: off every hole polygon and every padded hole bounding box of the
whole map. -/
def offAllHoles (env : Env) (x y : ℚ) : Bool :=
  if (allHolesNorm env).any (fun hole => pointInPolygon x y hole) then false
  else !((allHoleBounds env).any (fun b => pointInBounds x y b HOLE_PADDING_NORM))

/-- snapCoordinatesToFloor from the normalizer source. -/
def snapCoordinatesToFloor (env : Env) (coordinates : NormalizedCoordinates)
    (zoneId : String) : NormalizedCoordinates :=
  let x0 := clampRange coordinates.x 0 1
  let y0 := clampRange coordinates.y 0 1
  match zoneGeometryById env zoneId with
  | some zone =>
      if pointInZoneWalkable x0 y0 zone then { coordinates with x := x0, y := y0 }
      else if !pointInPolygon x0 y0 zone.outer then
        let world := toWorldFromNorm env zone.centroid.1 zone.centroid.2
        { x := zone.centroid.1, y := zone.centroid.2
          worldX := some world.1, worldZ := some world.2 }
      else
        match spiralSnap x0 y0 (fun x y => pointInZoneWalkable x y zone) with
        | some snapped =>
            let world := toWorldFromNorm env snapped.1 snapped.2
            { x := snapped.1, y := snapped.2
              worldX := some world.1, worldZ := some world.2 }
        | none =>
            let world := toWorldFromNorm env zone.centroid.1 zone.centroid.2
            { x := zone.centroid.1, y := zone.centroid.2
              worldX := some world.1, worldZ := some world.2 }
  | none =>
      if offAllHoles env x0 y0 then { coordinates with x := x0, y := y0 }
      else
        match spiralSnap x0 y0 (offAllHoles env) with
        | none => { coordinates with x := x0, y := y0 }
        | some snapped =>
            let world := toWorldFromNorm env snapped.1 snapped.2
            { x := snapped.1, y := snapped.2
              worldX := some world.1, worldZ := some world.2 }

/-- A JSON-like value, the model of an `unknown` feed record.  A missing
key is represented by `Option.none` at the use sites, `jnull` is JSON
`null`. -/
inductive JVal where
  | jnull : JVal
  | jbool : Bool → JVal
  | num : ℚ → JVal
  | str : String → JVal
  | arr : List JVal → JVal
  | obj : List (String × JVal) → JVal

/-- A raw record: the field list of a JSON object. -/
abbrev JObj := List (String × JVal)

/-- asRecord: `null` and primitives are rejected.  A JavaScript array is
`typeof "object"` and would be accepted; every key path the adapter
reads from a record is non-numeric, so an array behaves exactly like an
empty record and is modelled as one. -/
def asRecord (v : JVal) : Option JObj :=
  match v with
  | JVal.obj fields => some fields
  | JVal.arr _ => some []
  | _ => none

/-- The walk of readPath: property access chunk by chunk.  Key paths are
given pre-split (the source splits its dotted string literals on `"."`).
Property lookup on a JSON object follows JavaScript semantics (duplicate
keys: the last one wins). -/
def readPathVal : JVal → List String → Option JVal
  | v, [] => some v
  | JVal.obj fields, c :: rest =>
      match lookupLast fields c with
      | some v => readPathVal v rest
      | none => none
  | _, _ :: _ => none

/-- readPath on a record. -/
def readPath (r : JObj) (chunks : List String) : Option JVal :=
  readPathVal (JVal.obj r) chunks

/-- pickValue: the first candidate path holding a value that is neither
undefined nor null. -/
def pickValue (r : JObj) (paths : List (List String)) : Option JVal :=
  paths.findSome? (fun p =>
    match readPath r p with
    | some JVal.jnull => none
    | v => v)

/-- parseId from the normalizer source. -/
def parseId (v : Option JVal) : Option String :=
  match v with
  | some (JVal.str s) => if jsTrim s ≠ "" then some (jsTrim s) else none
  | some (JVal.num q) => some (toString (jsRound q))
  | _ => none

/-- MIN_VALID_EPOCH_MS = Date.UTC(2000, 0, 1) = 946684800000. -/
def MIN_VALID_EPOCH_MS : ℚ := 946684800000

/-- MAX_FUTURE_DRIFT_MS = 365 days. -/
def MAX_FUTURE_DRIFT_MS : ℚ := 31536000000

/-- The normalizeEpoch closure of parseEpochMs: round, then reject
timestamps before 2000 or more than 365 days in the future. -/
def normalizeEpoch (env : Env) (epochMs : ℚ) : Option ℚ :=
  let rounded : ℚ := (jsRound epochMs : ℚ)
  if rounded < MIN_VALID_EPOCH_MS then none
  else if rounded > env.nowMs + MAX_FUTURE_DRIFT_MS then none
  else some rounded

/-- The epoch-seconds/milliseconds dispatch shared by both branches of
parseEpochMs. -/
def epochDispatch (env : Env) (q : ℚ) : Option ℚ :=
  if q ≥ 1000000000000 then normalizeEpoch env q
  else if q ≥ 1000000000 ∧ q ≤ 100000000000 then normalizeEpoch env (q * 1000)
  else normalizeEpoch env q

/-- parseEpochMs from the normalizer source.  `Number(string)` and
`Date.parse` are the environment's `jsNumber` and `dateParse`. -/
def parseEpochMs (env : Env) (v : Option JVal) : Option ℚ :=
  match v with
  | some (JVal.num q) => epochDispatch env q
  | some (JVal.str s) =>
      let trimmed := jsTrim s
      if trimmed = "" then none
      else
        match env.jsNumber trimmed with
        | some asNum => epochDispatch env asNum
        | none =>
            match env.dateParse trimmed with
            | some parsed => normalizeEpoch env parsed
            | none => none
  | _ => none

/-- parseNumber from the normalizer source. -/
def parseNumber (env : Env) (v : Option JVal) : Option ℚ :=
  match v with
  | some (JVal.num q) => some q
  | some (JVal.str s) => env.jsNumber (jsTrim s)
  | _ => none

/-- parseText from the normalizer source. -/
def parseText (v : Option JVal) : Option String :=
  match v with
  | some (JVal.str s) => if jsTrim s ≠ "" then some (jsTrim s) else none
  | _ => none

/-- normalizeCameraKey. -/
def normalizeCameraKey (cameraId : String) : String := jsToLower (jsTrim cameraId)

/-- The EventType enum. -/
inductive EventType where
  | crowd | fall | fight | loitering | unknown
deriving DecidableEq

/-- The IncidentStatus enum. -/
inductive IncidentStatus where
  | new | ack | resolved
deriving DecidableEq

/-- The EventSource enum. -/
inductive EventSource where
  | demo | camera | api | unknown
deriving DecidableEq

/-- normalizeType from the normalizer source. -/
def normalizeType (v : Option JVal) : EventType :=
  match v with
  | some (JVal.str s) =>
      let n := jsToLower (jsTrim s)
      if n == "crowd" then EventType.crowd
      else if n == "fall" then EventType.fall
      else if n == "fight" then EventType.fight
      else if n == "loitering" then EventType.loitering
      else if n == "unknown" then EventType.unknown
      else if ["fall_down", "slip", "slipfall", "trip"].contains n then EventType.fall
      else if ["violence", "assault", "aggressive", "fight"].contains n then EventType.fight
      else if ["queue", "congestion", "crowding", "crowd"].contains n then EventType.crowd
      else if ["loiter", "idle", "linger", "loitering"].contains n then EventType.loitering
      else EventType.unknown
  | _ => EventType.unknown

/-- The type-based severity default of normalizeSeverity. -/
def severityDefault (type : EventType) : ℚ :=
  if type = EventType.fall ∨ type = EventType.fight then 3
  else if type = EventType.crowd then 2
  else 1

/-- normalizeSeverity from the normalizer source.  The digit-stripping
regex `/[^0-9.]/g` is the character filter. -/
def normalizeSeverity (env : Env) (v : Option JVal) (type : EventType) : ℚ :=
  match v with
  | some (JVal.num q) =>
      if q = 1 ∨ q = 2 ∨ q = 3 then q
      else if q ≥ 3 then 3
      else if q ≥ 2 then 2
      else 1
  | some (JVal.str s) =>
      let n := jsToLower (jsTrim s)
      if ["p1", "l3", "high", "critical", "severe", "urgent"].contains n then 3
      else if ["p2", "l2", "medium", "med", "moderate"].contains n then 2
      else if ["p3", "l1", "low", "minor"].contains n then 1
      else
        match env.jsNumber (String.mk (n.data.filter (fun c => c.isDigit || c == '.'))) with
        | some asNum =>
            if 1 ≤ asNum ∧ asNum ≤ 3 then ((jsRound asNum : ℤ) : ℚ)
            else severityDefault type
        | none => severityDefault type
  | _ => severityDefault type

/-- normalizeIncidentStatus from the normalizer source. -/
def normalizeIncidentStatus (v : Option JVal) : IncidentStatus :=
  match v with
  | some (JVal.str s) =>
      let n := jsToLower (jsTrim s)
      if n == "new" then IncidentStatus.new
      else if n == "ack" then IncidentStatus.ack
      else if n == "resolved" then IncidentStatus.resolved
      else if ["open", "opened", "detected", "created", "new_alert"].contains n then
        IncidentStatus.new
      else if ["acknowledged", "acknowledge", "in_progress", "processing",
          "dispatched"].contains n then IncidentStatus.ack
      else if ["closed", "done", "resolved_done", "complete",
          "completed"].contains n then IncidentStatus.resolved
      else IncidentStatus.new
  | _ => IncidentStatus.new

/-- normalizeSource from the normalizer source. -/
def normalizeSource (v : Option JVal) (fallback : EventSource) : EventSource :=
  match v with
  | some (JVal.str s) =>
      let n := jsToLower (jsTrim s)
      if n == "demo" then EventSource.demo
      else if n == "camera" then EventSource.camera
      else if n == "api" then EventSource.api
      else if n == "unknown" then EventSource.unknown
      else if jsIncludes n "camera" then EventSource.camera
      else if jsIncludes n "demo" then EventSource.demo
      else if n ≠ "" then EventSource.api
      else fallback
  | _ => fallback

/-- normalizeCoordinate from the normalizer source. -/
def normalizeCoordinate (env : Env) (v : Option JVal) : Option ℚ :=
  match parseNumber env v with
  | none => none
  | some parsed =>
      if 0 ≤ parsed ∧ parsed ≤ 1 then some parsed
      else if 0 ≤ parsed ∧ parsed ≤ 100 then some (clampRange (parsed / 100) 0 1)
      else none

/-- normalizeCoordinateWithFrame from the normalizer source (the
`Number.isFinite` guard never fires over ℚ). -/
def normalizeCoordinateWithFrame (value frameSize : ℚ) : Option ℚ :=
  if 0 ≤ value ∧ value ≤ 1 then some value
  else if 0 ≤ value ∧ value ≤ 100 then some (clampRange (value / 100) 0 1)
  else if frameSize > 0 then some (clampRange (value / frameSize) 0 1)
  else none

/-- The NormalizedBBox record. -/
structure NormalizedBBox where
  x1 : ℚ
  y1 : ℚ
  x2 : ℚ
  y2 : ℚ
deriving DecidableEq

/-- parseBBox from the normalizer source.  An array shorter than 4 falls
through to the record branch, where (being an array) every key lookup is
undefined, so the result is `none`. -/
def parseBBox (env : Env) (v : Option JVal) : Option NormalizedBBox :=
  match v with
  | some (JVal.arr items) =>
      if items.length ≥ 4 then
        match parseNumber env items[0]?, parseNumber env items[1]?,
            parseNumber env items[2]?, parseNumber env items[3]? with
        | some x1, some y1, some x2, some y2 =>
            some { x1 := min x1 x2, y1 := min y1 y2, x2 := max x1 x2, y2 := max y1 y2 }
        | _, _, _, _ => none
      else none
  | some (JVal.obj fields) =>
      let x1q := parseNumber env (pickValue fields [["x1"], ["left"], ["xmin"], ["x_min"]])
      let y1q := parseNumber env (pickValue fields [["y1"], ["top"], ["ymin"], ["y_min"]])
      let x2q := parseNumber env (pickValue fields [["x2"], ["right"], ["xmax"], ["x_max"]])
      let y2q := parseNumber env (pickValue fields [["y2"], ["bottom"], ["ymax"], ["y_max"]])
      match x1q, y1q, x2q, y2q with
      | some x1, some y1, some x2, some y2 =>
          some { x1 := min x1 x2, y1 := min y1 y2, x2 := max x1 x2, y2 := max y1 y2 }
      | _, _, _, _ =>
          let xq := parseNumber env (pickValue fields [["x"], ["left"]])
          let yq := parseNumber env (pickValue fields [["y"], ["top"]])
          let wq := parseNumber env (pickValue fields [["w"], ["width"]])
          let hq := parseNumber env (pickValue fields [["h"], ["height"]])
          match xq, yq, wq, hq with
          | some x, some y, some w, some h =>
              let x2FromWH := x + max 0 w
              let y2FromWH := y + max 0 h
              some { x1 := min x x2FromWH, y1 := min y y2FromWH
                     x2 := max x x2FromWH, y2 := max y y2FromWH }
          | _, _, _, _ => none
  | _ => none

/-- mapBBoxWithCameraCalibration from the normalizer source. -/
def mapBBoxWithCameraCalibration (env : Env) (cameraId : Option String)
    (centerX centerY : ℚ) (frameWidthRaw frameHeightRaw : Option ℚ) :
    Option (ℚ × ℚ) :=
  match cameraId with
  | none => none
  | some cid =>
      match env.cameraHomography (normalizeCameraKey cid) with
      | none => none
      | some matrix =>
          let hasInputFrame :=
            match frameWidthRaw, frameHeightRaw with
            | some w, some h => decide (w > 0) && decide (h > 0)
            | _, _ => false
          let isNormalizedInput :=
            decide (0 ≤ centerX) && decide (centerX ≤ 1) &&
              decide (0 ≤ centerY) && decide (centerY ≤ 1)
          let xy : ℚ × ℚ :=
            match env.cameraFrame (normalizeCameraKey cid) with
            | some cameraFrame =>
                if isNormalizedInput then
                  (centerX * cameraFrame.width, centerY * cameraFrame.height)
                else if hasInputFrame then
                  ((centerX / frameWidthRaw.getD 1) * cameraFrame.width,
                   (centerY / frameHeightRaw.getD 1) * cameraFrame.height)
                else (centerX, centerY)
            | none =>
                if hasInputFrame && isNormalizedInput then
                  (centerX * frameWidthRaw.getD 1, centerY * frameHeightRaw.getD 1)
                else (centerX, centerY)
          match env.applyHomographyQ matrix xy.1 xy.2 with
          | none => none
          | some mapped => some (clampRange mapped.1 0 1, clampRange mapped.2 0 1)

/-- The candidate key paths of the bbox itself. -/
def bboxPaths : List (List String) :=
  [["location", "bbox"], ["location", "bounding_box"], ["location", "box"],
   ["bbox"], ["bounding_box"], ["box"], ["position", "bbox"], ["detection", "bbox"]]

/-- The candidate key paths of the declared frame width. -/
def frameWidthPaths : List (List String) :=
  [["frame", "width"], ["frameWidth"], ["image", "width"], ["imageWidth"],
   ["resolution", "width"], ["data", "frame", "width"], ["payload", "frame", "width"],
   ["camera", "frame_width"], ["location", "frame", "width"],
   ["location", "frame_width"], ["meta", "frame_width"], ["meta", "width"]]

/-- The candidate key paths of the declared frame height. -/
def frameHeightPaths : List (List String) :=
  [["frame", "height"], ["frameHeight"], ["image", "height"], ["imageHeight"],
   ["resolution", "height"], ["data", "frame", "height"], ["payload", "frame", "height"],
   ["camera", "frame_height"], ["location", "frame", "height"],
   ["location", "frame_height"], ["meta", "frame_height"], ["meta", "height"]]

/-- extractBBoxCoordinates from the normalizer source. -/
def extractBBoxCoordinates (env : Env) (record : JObj) (cameraId : Option String)
    (allowFrameNormalization : Bool) : Option NormalizedCoordinates :=
  match parseBBox env (pickValue record bboxPaths) with
  | none => none
  | some bbox =>
      let frameWidthRaw := parseNumber env (pickValue record frameWidthPaths)
      let frameHeightRaw := parseNumber env (pickValue record frameHeightPaths)
      let frameWidth :=
        match frameWidthRaw with
        | some w => if w > 0 then w else env.mapW
        | none => env.mapW
      let frameHeight :=
        match frameHeightRaw with
        | some h => if h > 0 then h else env.mapH
        | none => env.mapH
      let centerX := (bbox.x1 + bbox.x2) / 2
      let centerY := bbox.y2
      match mapBBoxWithCameraCalibration env cameraId centerX centerY
          frameWidthRaw frameHeightRaw with
      | some calibrated => some { x := calibrated.1, y := calibrated.2 }
      | none =>
          if !allowFrameNormalization then none
          else
            match normalizeCoordinateWithFrame centerX frameWidth,
                normalizeCoordinateWithFrame centerY frameHeight with
            | some x, some y => some { x := x, y := y }
            | _, _ => none

/-- The candidate key paths of world-meter x. -/
def worldXPaths : List (List String) :=
  [["world", "x"], ["worldX"], ["world_x"], ["position", "world", "x"],
   ["position_world", "x"], ["location", "world", "x"], ["location", "world_x"],
   ["location", "x_m"], ["x_m"]]

/-- The candidate key paths of world-meter z. -/
def worldZPaths : List (List String) :=
  [["world", "z"], ["worldZ"], ["world_z"], ["position", "world", "z"],
   ["position_world", "z"], ["location", "world", "z"], ["location", "world_z"],
   ["location", "z_m"], ["z_m"]]

/-- extractWorldCoordinates from the normalizer source. -/
def extractWorldCoordinates (env : Env) (record : JObj) :
    Option NormalizedCoordinates :=
  match parseNumber env (pickValue record worldXPaths),
      parseNumber env (pickValue record worldZPaths) with
  | some worldX, some worldZ =>
      if 0 ≤ worldX ∧ worldX ≤ 1 ∧ 0 ≤ worldZ ∧ worldZ ≤ 1 then
        let worldNormX := clampRange worldX 0 1
        let worldNormY := clampRange worldZ 0 1
        let mapped := env.worldNormToMapNorm worldNormX worldNormY
        some { x := mapped.1, y := mapped.2
               worldX := some (env.worldOX + worldNormX * env.worldW)
               worldZ := some (env.worldOZ + worldNormY * env.worldD) }
      else
        let worldNormX := clampRange ((worldX - env.worldOX) / env.worldW) 0 1
        let worldNormY := clampRange ((worldZ - env.worldOZ) / env.worldD) 0 1
        let mapped := env.worldNormToMapNorm worldNormX worldNormY
        some { x := mapped.1, y := mapped.2
               worldX := some worldX, worldZ := some worldZ }
  | _, _ => none

/-- normalizeConfidence from the normalizer source. -/
def normalizeConfidence (env : Env) (v : Option JVal) (severity : ℚ) : ℚ :=
  match parseNumber env v with
  | some parsed =>
      if parsed > 1 ∧ parsed ≤ 100 then clampRange (parsed / 100) 0 1
      else clampRange parsed 0 1
  | none => if severity = 3 then 92/100 else if severity = 2 then 84/100 else 78/100

/-- resolveEventType from the normalizer source. -/
def resolveEventType (record : JObj) : EventType :=
  let primary := normalizeType (pickValue record
    [["type"], ["event_type"], ["eventType"], ["category"], ["event_name"], ["label"]])
  if primary ≠ EventType.unknown then primary
  else normalizeType (pickValue record
    [["status"], ["state"], ["event_status"], ["eventState"]])

/-- extractNote from the normalizer source. -/
def extractNote (record : JObj) : Option String :=
  let direct := parseText (pickValue record
    [["note"], ["message"], ["description"], ["reason"], ["summary"],
     ["vlm_analysis", "summary"]])
  let cause := parseText (pickValue record [["vlm_analysis", "cause"], ["analysis", "cause"]])
  let action := parseText (pickValue record
    [["vlm_analysis", "action"], ["analysis", "action"], ["action"], ["recommended_action"]])
  let detailChunks : List String :=
    ([cause.map (fun c => "cause:" ++ c), action.map (fun a => "action:" ++ a)]).reduceOption
  match direct with
  | some d =>
      if detailChunks = [] then some d
      else some (String.intercalate " | " (d :: detailChunks))
  | none =>
      if detailChunks ≠ [] then some (String.intercalate " | " detailChunks)
      else none

/-- The candidate key paths of the explicit zone id. -/
def zoneIdPaths : List (List String) :=
  [["zone_id"], ["zoneId"], ["zone", "id"], ["zone", "zone_id"],
   ["location", "zone_id"], ["location", "zoneId"], ["area_id"], ["areaId"]]

/-- The candidate key paths of the explicit normalized x coordinate. -/
def xPaths : List (List String) :=
  [["x"], ["x_norm"], ["xNorm"], ["position", "x"], ["position", "x_norm"],
   ["position", "xNorm"], ["location", "x"], ["location", "x_norm"],
   ["location", "xNorm"], ["coord", "x"], ["coordinates", "x"], ["point", "x"],
   ["geo", "x"]]

/-- The candidate key paths of the explicit normalized y coordinate. -/
def yPaths : List (List String) :=
  [["y"], ["y_norm"], ["yNorm"], ["position", "y"], ["position", "y_norm"],
   ["position", "yNorm"], ["location", "y"], ["location", "y_norm"],
   ["location", "yNorm"], ["coord", "y"], ["coordinates", "y"], ["point", "y"],
   ["geo", "y"]]

/-- extractCoordinates from the normalizer source: the six-step
coordinate cascade. -/
def extractCoordinates (env : Env) (record : JObj) (cameraId : Option String) :
    Option NormalizedCoordinates :=
  let x := normalizeCoordinate env (pickValue record xPaths)
  let y := normalizeCoordinate env (pickValue record yPaths)
  match x, y with
  | some xv, some yv => some { x := xv, y := yv }
  | _, _ =>
      match extractWorldCoordinates env record with
      | some wc => some wc
      | none =>
          match extractBBoxCoordinates env record cameraId false with
          | some cb => some cb
          | none =>
              match extractBBoxCoordinates env record cameraId true with
              | some fb => some fb
              | none =>
                  let pairCandidate := pickValue record
                    [["position"], ["location"], ["coord"], ["coordinates"], ["point"]]
                  let pairResult : Option NormalizedCoordinates :=
                    match pairCandidate with
                    | some (JVal.arr items) =>
                        if items.length ≥ 2 then
                          match normalizeCoordinate env items[0]?,
                              normalizeCoordinate env items[1]? with
                          | some px, some py => some { x := px, y := py }
                          | _, _ => none
                        else none
                    | _ => none
                  match pairResult with
                  | some pr => some pr
                  | none =>
                      match parseId (pickValue record zoneIdPaths) with
                      | some zoneId =>
                          match zoneCentroid env zoneId with
                          | some c => some { x := c.1, y := c.2 }
                          | none => none
                      | none => none

/-- The nearest-centroid fold of resolveZoneId (strictly closer wins, so
the first entry of the centroid table wins ties). -/
def nearestZoneByCentroid (env : Env) (x y : ℚ) : String :=
  let start : String × Option ℚ :=
    ((env.zones.head?.map RawZone.zone_id).getD "zone-s001-center", none)
  (Prod.fst <| (jsMap (buildZoneCentroids env.zones env.mapW env.mapH)).foldl
    (fun best entry =>
      let dx := x - entry.2.1
      let dy := y - entry.2.2
      let distance := dx * dx + dy * dy
      match best.2 with
      | none => (entry.1, some distance)
      | some bd => if distance < bd then (entry.1, some distance) else best)
    start)

/-- resolveZoneId from the normalizer source. -/
def resolveZoneId (env : Env) (record : JObj)
    (coordinates : NormalizedCoordinates) : String :=
  let explicitZoneId := parseId (pickValue record zoneIdPaths)
  let fallback : String :=
    match (zoneGeometries env).find?
        (fun zone => pointInPolygon coordinates.x coordinates.y zone.outer) with
    | some zone => zone.zoneId
    | none => nearestZoneByCentroid env coordinates.x coordinates.y
  match explicitZoneId with
  | some ez =>
      if zoneIdsHas env ez then ez
      else if !genericZoneIdsHas (jsToLower ez) then ez
      else fallback
  | none => fallback

/-- The options record of adaptRawEvent. -/
structure AdaptOptions where
  fallbackStoreId : Option String := none
  defaultSource : Option EventSource := none
deriving DecidableEq

/-- The canonical EventItem produced by the normalizer. -/
structure EventItem where
  id : String
  store_id : String
  detected_at : ℚ
  ingested_at : ℚ
  latency_ms : ℚ
  type : EventType
  severity : ℚ
  confidence : ℚ
  zone_id : String
  camera_id : Option String
  track_id : Option String
  object_label : Option String
  raw_status : Option String
  source : EventSource
  model_version : Option String
  incident_status : IncidentStatus
  x : ℚ
  y : ℚ
  world_x_m : Option ℚ
  world_z_m : Option ℚ
  note : Option String
deriving DecidableEq

/-- The candidate key paths of the camera id. -/
def cameraIdPaths : List (List String) :=
  [["camera_id"], ["cameraId"], ["camera", "id"], ["device_id"], ["deviceId"],
   ["device", "id"]]

/-- The candidate key paths of the track id. -/
def trackIdPaths : List (List String) :=
  [["track_id"], ["trackId"], ["tracking_id"], ["trackingId"], ["object_id"],
   ["objectId"]]

/-- The candidate key paths of the explicit event id. -/
def explicitIdPaths : List (List String) :=
  [["id"], ["event_id"], ["eventId"], ["uuid"], ["alarm_id"], ["alarmId"],
   ["alert_id"], ["alertId"]]

/-- The candidate key paths of the detection timestamp. -/
def detectedAtPaths : List (List String) :=
  [["detected_at"], ["detectedAt"], ["ts"], ["timestamp"], ["created_at"],
   ["createdAt"], ["time"]]

/-- adaptRawEvent from the normalizer source. -/
def adaptRawEvent (env : Env) (v : JVal) (opts : AdaptOptions) : Option EventItem :=
  match asRecord v with
  | none => none
  | some record =>
      let cameraId := parseId (pickValue record cameraIdPaths)
      let trackId := parseId (pickValue record trackIdPaths)
      let explicitId := parseId (pickValue record explicitIdPaths)
      let idResolved : Option String :=
        match explicitId with
        | some i => some i
        | none =>
            match trackId with
            | some t => some ((cameraId.getD "cam-unknown") ++ ":track-" ++ t)
            | none => none
      match idResolved with
      | none => none
      | some id =>
          match parseEpochMs env (pickValue record detectedAtPaths) with
          | none => none
          | some detectedAt =>
              let ingestedAtRaw := parseEpochMs env (pickValue record
                [["ingested_at"], ["ingestedAt"], ["received_at"], ["receivedAt"],
                 ["updated_at"], ["updatedAt"]])
              let ingestedAt := ingestedAtRaw.getD detectedAt
              let latencyRaw := parseNumber env (pickValue record
                [["latency_ms"], ["latencyMs"], ["latency"], ["delay_ms"]])
              let latencyMs : ℚ :=
                match latencyRaw with
                | some l => (max 0 (jsRound l) : ℤ)
                | none => (max 0 (jsRound (ingestedAt - detectedAt)) : ℤ)
              let statusRaw := pickValue record
                [["status"], ["state"], ["event_status"], ["result", "status"],
                 ["payload", "status"]]
              let objectLabelRaw := pickValue record
                [["label"], ["object", "label"], ["class"], ["class_name"],
                 ["object", "class"], ["event_label"]]
              let objectLabel : Option String :=
                match objectLabelRaw with
                | some (JVal.str s) => some s
                | _ => none
              let rawStatus : Option String :=
                match statusRaw with
                | some (JVal.str s) => some s
                | _ => none
              let type := resolveEventType record
              let severity := normalizeSeverity env (pickValue record
                [["severity"], ["priority"], ["level"], ["risk"], ["risk_level"],
                 ["riskLevel"], ["status"], ["state"]]) type
              let confidence := normalizeConfidence env (pickValue record
                [["confidence"], ["score"], ["probability"], ["confidence_score"],
                 ["confidenceScore"]]) severity
              match extractCoordinates env record cameraId with
              | none => none
              | some coordinates =>
                  let zoneId := resolveZoneId env record coordinates
                  let snapped := snapCoordinatesToFloor env coordinates zoneId
                  let storeIdRaw := parseId (pickValue record
                    [["store_id"], ["storeId"], ["store", "id"], ["site_id"],
                     ["siteId"], ["shop_id"], ["shopId"]])
                  let storeId :=
                    match storeIdRaw with
                    | some s => s
                    | none => opts.fallbackStoreId.getD "s001"
                  let source := normalizeSource (pickValue record
                    [["source"], ["provider"], ["channel"], ["origin"],
                     ["ingest_source"]]) (opts.defaultSource.getD EventSource.unknown)
                  let incidentStatus := normalizeIncidentStatus (pickValue record
                    [["incident_status"], ["incidentStatus"], ["status"], ["state"],
                     ["resolution"], ["result", "status"]])
                  let modelVersion := parseId (pickValue record
                    [["model_version"], ["modelVersion"], ["model", "version"]])
                  let note := extractNote record
                  some
                    { id := id
                      store_id := storeId
                      detected_at := detectedAt
                      ingested_at := ingestedAt
                      latency_ms := latencyMs
                      type := type
                      severity := severity
                      confidence := confidence
                      zone_id := zoneId
                      camera_id := cameraId
                      track_id := trackId
                      object_label := objectLabel
                      raw_status := rawStatus
                      source := source
                      model_version := modelVersion
                      incident_status := incidentStatus
                      x := snapped.x
                      y := snapped.y
                      world_x_m := snapped.worldX
                      world_z_m := snapped.worldZ
                      note := note }

/-- The options record of normalizeEventFeed. -/
structure NormalizeOptions where
  maxEvents : ℚ
  fallbackStoreId : Option String := none
  defaultSource : Option EventSource := none

/-- The adapter options a NormalizeOptions carries. -/
def NormalizeOptions.toAdapt (o : NormalizeOptions) : AdaptOptions :=
  { fallbackStoreId := o.fallbackStoreId, defaultSource := o.defaultSource }

/-- `Math.max(1, Math.min(1000, Number(options.maxEvents) || 1))`; `|| 1`
replaces 0 (and JavaScript NaN, which ℚ cannot hold) by 1. -/
def safeMaxEvents (o : NormalizeOptions) : ℚ :=
  max 1 (min 1000 (if o.maxEvents = 0 then 1 else o.maxEvents))

/-- The deduplication fold of normalizeEventFeed: a JavaScript `Map`
keyed by id, replacing the kept event only when the incoming one is
strictly newer by `(detected_at, then ingested_at)`. -/
def dedupNewer (events : List EventItem) : List (String × EventItem) :=
  events.foldl
    (fun m event =>
      match jsMapGet m event.id with
      | none => jsMapUpsert m event.id event
      | some existing =>
          if event.detected_at > existing.detected_at then
            jsMapUpsert m event.id event
          else if event.detected_at = existing.detected_at ∧
              event.ingested_at > existing.ingested_at then
            jsMapUpsert m event.id event
          else m)
    []

/-- The sort comparator of the feed (and of mergeEvents and
applyIncomingSyncBatch), as a total boolean order: descending
detected_at, then descending ingested_at, then ascending id
(`localeCompare` modelled as lexicographic string order). -/
def feedLE (a b : EventItem) : Bool :=
  if a.detected_at ≠ b.detected_at then decide (b.detected_at < a.detected_at)
  else if a.ingested_at ≠ b.ingested_at then decide (b.ingested_at < a.ingested_at)
  else decide (a.id ≤ b.id)

/-- The element count `Array.prototype.slice(0, end)` keeps for a
positive fractional `end`. -/
def sliceCount (q : ℚ) : ℕ := (⌊q⌋).toNat

/-- normalizeEventFeed from the normalizer source (on an array input;
a non-array input returns `[]` before any of this runs). -/
def normalizeEventFeed (env : Env) (raw : List JVal) (opts : NormalizeOptions) :
    List EventItem :=
  let normalized := raw.filterMap (fun item => adaptRawEvent env item opts.toAdapt)
  (((dedupNewer normalized).map Prod.snd).mergeSort feedLE).take
    (sliceCount (safeMaxEvents opts))

/-- MAX_EVENTS of the sync page. -/
def MAX_EVENTS : ℕ := 600

/-- mergeEvents from the sync page source.  `{...prev, ...event}` equals
`event`: the object literal adaptRawEvent returns carries every key of
the EventItem shape, so spreading the incoming event overrides every
field of `prev`. -/
def mergeEvents (existing incoming : List EventItem) : List EventItem :=
  let m := jsMap (existing.map (fun e => (e.id, e)))
  let merged := incoming.foldl (fun acc event => jsMapUpsert acc event.id event) m
  ((merged.map Prod.snd).mergeSort feedLE).take MAX_EVENTS

/-- The sync mode enum. -/
inductive SyncMode where
  | merge | replace
deriving DecidableEq

/-- A normalized incoming sync batch. -/
structure IncomingSyncBatch where
  mode : SyncMode
  upsert : List EventItem
  removeIds : List String

/-- applyIncomingSyncBatch from the sync page source. -/
def applyIncomingSyncBatch (existing : List EventItem)
    (incoming : IncomingSyncBatch) : List EventItem :=
  let next :=
    if incoming.mode = SyncMode.replace then incoming.upsert
    else mergeEvents existing incoming.upsert
  let next2 :=
    if incoming.removeIds ≠ [] then
      next.filter (fun event => !(incoming.removeIds.contains event.id))
    else next
  (next2.mergeSort feedLE).take MAX_EVENTS

/-! ### Interval lemmas for the snap pipeline -/

theorem clampRange01_nonneg (v : ℚ) : 0 ≤ clampRange v 0 1 :=
  le_max_left 0 (min 1 v)

theorem clampRange01_le_one (v : ℚ) : clampRange v 0 1 ≤ 1 :=
  max_le (by norm_num) (min_le_left 1 v)

theorem clampRange01_mem (v : ℚ) :
    0 ≤ clampRange v 0 1 ∧ clampRange v 0 1 ≤ 1 :=
  ⟨clampRange01_nonneg v, clampRange01_le_one v⟩

theorem lookupLast_mem {α : Type} {l : List (String × α)} {k : String} {v : α}
    (h : lookupLast l k = some v) : ∃ p ∈ l, p.2 = v := by
  unfold lookupLast at h
  cases hg : (l.filter (fun p => p.1 == k)).getLast? with
  | none => simp [hg] at h
  | some p =>
      refine ⟨p, ?_, ?_⟩
      · exact List.mem_of_mem_filter (List.mem_of_mem_getLast? hg)
      · simp [hg] at h
        exact h

theorem buildZoneCentroids_bounds {zones : List RawZone} {w h : ℚ}
    {p : String × (ℚ × ℚ)} (hp : p ∈ buildZoneCentroids zones w h) :
    (0 ≤ p.2.1 ∧ p.2.1 ≤ 1) ∧ (0 ≤ p.2.2 ∧ p.2.2 ≤ 1) := by
  unfold buildZoneCentroids at hp
  obtain ⟨z, _, rfl⟩ := List.mem_map.mp hp
  exact ⟨clampRange01_mem _, clampRange01_mem _⟩

theorem zoneGeometries_centroid_bounds {env : Env} {zg : ZoneGeometry}
    (hzg : zg ∈ zoneGeometries env) :
    (0 ≤ zg.centroid.1 ∧ zg.centroid.1 ≤ 1) ∧
      (0 ≤ zg.centroid.2 ∧ zg.centroid.2 ≤ 1) := by
  unfold zoneGeometries buildZoneGeometries at hzg
  obtain ⟨z, _, rfl⟩ := List.mem_map.mp hzg
  simp only
  cases hc : lookupLast (buildZoneCentroids env.zones env.mapW env.mapH) z.zone_id with
  | none => simp [hc]; norm_num
  | some c =>
      simp only [hc, Option.getD_some]
      obtain ⟨p, hp, rfl⟩ := lookupLast_mem hc
      exact buildZoneCentroids_bounds hp

theorem zoneGeometryById_mem {env : Env} {zid : String} {zg : ZoneGeometry}
    (h : zoneGeometryById env zid = some zg) : zg ∈ zoneGeometries env := by
  unfold zoneGeometryById at h
  obtain ⟨p, hp, rfl⟩ := lookupLast_mem h
  obtain ⟨g, hg, rfl⟩ := List.mem_map.mp hp
  exact hg

/-! ### Spiral snap: every returned point is walkable and clamped -/

/-- Invariant of the best-candidate state of a spiral-snap ring. -/
def ringStOk (pred : ℚ → ℚ → Bool) (st : Option (ℚ × ℚ × ℚ)) : Prop :=
  ∀ b, st = some b →
    pred b.1 b.2.1 = true ∧ (0 ≤ b.1 ∧ b.1 ≤ 1) ∧ (0 ≤ b.2.1 ∧ b.2.1 ≤ 1)

theorem ringTest_ok {x0 y0 : ℚ} {pred : ℚ → ℚ → Bool}
    {st : Option (ℚ × ℚ × ℚ)} (hst : ringStOk pred st) (p : ℚ × ℚ) :
    ringStOk pred (ringTest x0 y0 pred st p) := by
  intro b hb
  simp only [ringTest] at hb
  cases hw : pred (clampRange p.1 0 1) (clampRange p.2 0 1) with
  | false =>
      rw [hw] at hb
      simp only [Bool.not_false, if_true] at hb
      exact hst b hb
  | true =>
      rw [hw] at hb
      simp only [Bool.not_true, Bool.false_eq_true, if_false] at hb
      cases st with
      | none =>
          cases hb
          exact ⟨hw, clampRange01_mem _, clampRange01_mem _⟩
      | some old =>
          obtain ⟨bx, bcy, bd⟩ := old
          simp only at hb
          by_cases hlt : (clampRange p.1 0 1 - x0) * (clampRange p.1 0 1 - x0) +
              (clampRange p.2 0 1 - y0) * (clampRange p.2 0 1 - y0) < bd
          · rw [if_pos hlt] at hb
            cases hb
            exact ⟨hw, clampRange01_mem _, clampRange01_mem _⟩
          · rw [if_neg hlt] at hb
            cases hb
            exact hst _ rfl

theorem foldl_ringTest_ok {x0 y0 : ℚ} {pred : ℚ → ℚ → Bool}
    (l : List (ℚ × ℚ)) {st : Option (ℚ × ℚ × ℚ)} (hst : ringStOk pred st) :
    ringStOk pred (l.foldl (ringTest x0 y0 pred) st) := by
  induction l generalizing st with
  | nil => exact hst
  | cons p rest ih => exact ih (ringTest_ok hst p)

theorem ringBest_ok {x0 y0 step : ℚ} {pred : ℚ → ℚ → Bool} {ring : ℕ}
    {p : ℚ × ℚ} (h : ringBest x0 y0 step pred ring = some p) :
    pred p.1 p.2 = true ∧ (0 ≤ p.1 ∧ p.1 ≤ 1) ∧ (0 ≤ p.2 ∧ p.2 ≤ 1) := by
  unfold ringBest at h
  cases hf : (ringProbes x0 y0 step ring).foldl (ringTest x0 y0 pred) none with
  | none => simp [hf] at h
  | some b =>
      have hok := @foldl_ringTest_ok x0 y0 pred
        (ringProbes x0 y0 step ring) none (fun _ h => by cases h)
      rw [hf] at hok
      have := hok b rfl
      simp only [hf, Option.map_some] at h
      cases h
      exact this

theorem spiralAux_ok {x0 y0 step : ℚ} {pred : ℚ → ℚ → Bool} {p : ℚ × ℚ} :
    ∀ {ring fuel : ℕ}, spiralAux x0 y0 pred step ring fuel = some p →
      pred p.1 p.2 = true ∧ (0 ≤ p.1 ∧ p.1 ≤ 1) ∧ (0 ≤ p.2 ∧ p.2 ≤ 1) := by
  intro ring fuel
  induction fuel generalizing ring with
  | zero => intro h; cases h
  | succ n ih =>
      intro h
      unfold spiralAux at h
      cases hr : ringBest x0 y0 step pred ring with
      | some q => rw [hr] at h; cases h; exact ringBest_ok hr
      | none => rw [hr] at h; exact ih h

theorem spiralSnap_ok {x0 y0 step : ℚ} {pred : ℚ → ℚ → Bool} {maxRings : ℕ}
    {p : ℚ × ℚ} (h : spiralSnap x0 y0 pred step maxRings = some p) :
    pred p.1 p.2 = true ∧ (0 ≤ p.1 ∧ p.1 ≤ 1) ∧ (0 ≤ p.2 ∧ p.2 ≤ 1) :=
  spiralAux_ok h

/-! ### The snap always lands in the unit square -/

theorem snap_bounds (env : Env) (c : NormalizedCoordinates) (zid : String) :
    (0 ≤ (snapCoordinatesToFloor env c zid).x ∧
        (snapCoordinatesToFloor env c zid).x ≤ 1) ∧
      (0 ≤ (snapCoordinatesToFloor env c zid).y ∧
        (snapCoordinatesToFloor env c zid).y ≤ 1) := by
  unfold snapCoordinatesToFloor
  cases hz : zoneGeometryById env zid with
  | some zone =>
      have hmem := zoneGeometryById_mem hz
      have hcent := zoneGeometries_centroid_bounds hmem
      simp only
      split
      · exact ⟨clampRange01_mem _, clampRange01_mem _⟩
      · split
        · exact hcent
        · cases hs : spiralSnap (clampRange c.x 0 1) (clampRange c.y 0 1)
              (fun x y => pointInZoneWalkable x y zone) with
          | some snapped =>
              simp only [hs]
              have := spiralSnap_ok hs
              exact ⟨this.2.1, this.2.2⟩
          | none => simp only [hs]; exact hcent
  | none =>
      simp only
      split
      · exact ⟨clampRange01_mem _, clampRange01_mem _⟩
      · cases hs : spiralSnap (clampRange c.x 0 1) (clampRange c.y 0 1)
            (offAllHoles env) with
        | none => simp only [hs]; exact ⟨clampRange01_mem _, clampRange01_mem _⟩
        | some snapped =>
            simp only [hs]
            have := spiralSnap_ok hs
            exact ⟨this.2.1, this.2.2⟩

theorem snap_walkable_or_centroid (env : Env) (c : NormalizedCoordinates)
    {zid : String} {zg : ZoneGeometry} (hz : zoneGeometryById env zid = some zg) :
    pointInZoneWalkable (snapCoordinatesToFloor env c zid).x
        (snapCoordinatesToFloor env c zid).y zg = true ∨
      ((snapCoordinatesToFloor env c zid).x = zg.centroid.1 ∧
        (snapCoordinatesToFloor env c zid).y = zg.centroid.2) := by
  unfold snapCoordinatesToFloor
  rw [hz]
  simp only
  split
  · next hw => exact Or.inl hw
  · split
    · exact Or.inr ⟨rfl, rfl⟩
    · cases hs : spiralSnap (clampRange c.x 0 1) (clampRange c.y 0 1)
          (fun x y => pointInZoneWalkable x y zg) with
      | some snapped =>
          simp only [hs]
          exact Or.inl (spiralSnap_ok hs).1
      | none => right; simp [hs]

/-- The shape of a successfully adapted event: its zone id is the
resolved one and its coordinates are the snapped coordinates of the
resolved raw coordinates. -/
theorem adaptRawEvent_shape {env : Env} {v : JVal} {opts : AdaptOptions}
    {ev : EventItem} (h : adaptRawEvent env v opts = some ev) :
    ∃ c : NormalizedCoordinates,
      ev.x = (snapCoordinatesToFloor env c ev.zone_id).x ∧
        ev.y = (snapCoordinatesToFloor env c ev.zone_id).y := by
  unfold adaptRawEvent at h
  cases hrec : asRecord v with
  | none => rw [hrec] at h; cases h
  | some record =>
      rw [hrec] at h
      simp only at h
      split at h
      · cases h
      · split at h
        · cases h
        · next detectedAt _ =>
            split at h
            · cases h
            · next coordinates hc =>
                cases h
                exact ⟨coordinates, rfl, rfl⟩

/-! ### Claim C1 -/

/-- C1: for every raw record accepted by adaptRawEvent (non-null
result), the returned event's x and y coordinates each lie in the closed
interval [0, 1], regardless of which branch of the coordinate cascade or
walkability snap produced them. -/
theorem C1_adaptRawEvent_coords_in_unit_square (env : Env) (v : JVal)
    (opts : AdaptOptions) (ev : EventItem)
    (h : adaptRawEvent env v opts = some ev) :
    (0 ≤ ev.x ∧ ev.x ≤ 1) ∧ (0 ≤ ev.y ∧ ev.y ≤ 1) := by
  obtain ⟨c, hx, hy⟩ := adaptRawEvent_shape h
  rw [hx, hy]
  exact snap_bounds env c ev.zone_id

/-- A trivial environment: no zones, no cameras, every external parser
empty. -/
def env0 : Env :=
  { nowMs := 1700000000000
    dateParse := fun _ => none
    jsNumber := fun _ => none
    mapW := 1000
    mapH := 1000
    worldW := 9
    worldD := 24/5
    worldOX := 0
    worldOZ := 0
    mapNormToWorldNorm := fun x y => (x, y)
    worldNormToMapNorm := fun x y => (x, y)
    applyHomographyQ := fun _ _ _ => none
    cameraHomography := fun _ => none
    cameraFrame := fun _ => none
    zones := [] }

/-- A plain raw record with an id, a timestamp and normalized
coordinates. -/
def recC1 : JVal :=
  JVal.obj [("id", JVal.str "e1"), ("ts", JVal.num 1700000000000),
    ("x", JVal.num (1/2)), ("y", JVal.num (1/2))]

/-- The event recC1 normalizes to in env0. -/
def evC1 : EventItem :=
  { id := "e1"
    store_id := "s001"
    detected_at := 1700000000000
    ingested_at := 1700000000000
    latency_ms := 0
    type := EventType.unknown
    severity := 1
    confidence := 78/100
    zone_id := "zone-s001-center"
    camera_id := none
    track_id := none
    object_label := none
    raw_status := none
    source := EventSource.unknown
    model_version := none
    incident_status := IncidentStatus.new
    x := 1/2
    y := 1/2
    world_x_m := none
    world_z_m := none
    note := none }

set_option maxHeartbeats 2000000 in
/-- recC1 is accepted in env0 and normalizes to evC1. -/
theorem adaptRawEvent_recC1 : adaptRawEvent env0 recC1 {} = some evC1 := by
  simp [adaptRawEvent, asRecord, recC1, env0, evC1, pickValue, readPath,
    readPathVal, lookupLast, parseId, jsTrim, jsTrimList, jsToLower,
    Char.isWhitespace, parseEpochMs, epochDispatch, normalizeEpoch, jsRound,
    MIN_VALID_EPOCH_MS, MAX_FUTURE_DRIFT_MS, parseNumber, parseText,
    resolveEventType, normalizeType, normalizeSeverity, severityDefault,
    normalizeConfidence, normalizeSource, normalizeIncidentStatus,
    extractCoordinates, normalizeCoordinate, extractWorldCoordinates,
    extractBBoxCoordinates, parseBBox, mapBBoxWithCameraCalibration,
    normalizeCameraKey, bboxPaths, frameWidthPaths, frameHeightPaths,
    worldXPaths, worldZPaths, xPaths, yPaths, zoneIdPaths, zoneCentroid,
    cameraIdPaths, trackIdPaths, explicitIdPaths, detectedAtPaths,
    buildZoneCentroids, resolveZoneId, zoneGeometries, buildZoneGeometries,
    zoneIdsHas, genericZoneIdsHas, nearestZoneByCentroid, jsMap, jsMapUpsert,
    jsMapGet, snapCoordinatesToFloor, zoneGeometryById, offAllHoles,
    allHolesNorm, allHoleBounds, pointInBounds, pointInPolygon, clampRange,
    HOLE_PADDING_NORM, ZONE_EDGE_PADDING_NORM, extractNote, jsIncludes,
    pointInZoneWalkable, polygonBounds, boundsInf, pairOf, List.findSome?]
  norm_num

/-- Witness for C1: the concrete accepted record recC1 lands in the unit
square. -/
theorem C1_witness : (0 ≤ evC1.x ∧ evC1.x ≤ 1) ∧ (0 ≤ evC1.y ∧ evC1.y ≤ 1) :=
  C1_adaptRawEvent_coords_in_unit_square env0 recC1 {} evC1 adaptRawEvent_recC1

/-! ### Claim C2 -/

/-- C2: for every event accepted by adaptRawEvent whose resolved zoneId
names a zone in the loaded zone map, the final (x, y) is either walkable
with respect to that zone (inside the outer polygon, outside every hole
polygon, outside every padded hole bounding box, and inside the
edge-padded outer bounds — the conjuncts of pointInZoneWalkable) or is
exactly equal to that zone's centroid. -/
theorem C2_adaptRawEvent_walkable_or_centroid (env : Env) (v : JVal)
    (opts : AdaptOptions) (ev : EventItem) (zg : ZoneGeometry)
    (h : adaptRawEvent env v opts = some ev)
    (hz : zoneGeometryById env ev.zone_id = some zg) :
    pointInZoneWalkable ev.x ev.y zg = true ∨
      (ev.x = zg.centroid.1 ∧ ev.y = zg.centroid.2) := by
  obtain ⟨c, hx, hy⟩ := adaptRawEvent_shape h
  rw [hx, hy]
  exact snap_walkable_or_centroid env c hz

/-- An environment with one square zone. -/
def envC2 : Env :=
  { env0 with
    zones := [{ zone_id := "z1"
                polygon := [[100, 100], [900, 100], [900, 900], [100, 900]]
                holes := []
                centroid := some [500, 500] }] }

/-- A raw record naming zone z1 with walkable coordinates. -/
def recC2 : JVal :=
  JVal.obj [("id", JVal.str "e1"), ("ts", JVal.num 1700000000000),
    ("x", JVal.num (1/2)), ("y", JVal.num (1/2)), ("zone_id", JVal.str "z1")]

/-- The zone geometry envC2 builds for z1. -/
def zgC2 : ZoneGeometry :=
  { zoneId := "z1"
    outer := [(1/10, 1/10), (9/10, 1/10), (9/10, 9/10), (1/10, 9/10)]
    outerBounds := { minX := 1/10, maxX := 9/10, minY := 1/10, maxY := 9/10 }
    holes := []
    holeBounds := []
    centroid := (1/2, 1/2) }

/-- The event recC2 normalizes to in envC2. -/
def evC2 : EventItem :=
  { evC1 with zone_id := "z1" }

set_option maxHeartbeats 2000000 in
/-- recC2 is accepted in envC2 and normalizes to evC2. -/
theorem adaptRawEvent_recC2 : adaptRawEvent envC2 recC2 {} = some evC2 := by
  simp [adaptRawEvent, asRecord, recC2, envC2, env0, evC2, evC1, pickValue,
    readPath, readPathVal, lookupLast, parseId, jsTrim, jsTrimList, jsToLower,
    Char.isWhitespace, parseEpochMs, epochDispatch, normalizeEpoch, jsRound,
    MIN_VALID_EPOCH_MS, MAX_FUTURE_DRIFT_MS, parseNumber, parseText,
    resolveEventType, normalizeType, normalizeSeverity, severityDefault,
    normalizeConfidence, normalizeSource, normalizeIncidentStatus,
    extractCoordinates, normalizeCoordinate, extractWorldCoordinates,
    extractBBoxCoordinates, parseBBox, mapBBoxWithCameraCalibration,
    normalizeCameraKey, bboxPaths, frameWidthPaths, frameHeightPaths,
    worldXPaths, worldZPaths, xPaths, yPaths, zoneIdPaths, zoneCentroid,
    cameraIdPaths, trackIdPaths, explicitIdPaths, detectedAtPaths,
    buildZoneCentroids, resolveZoneId, zoneGeometries, buildZoneGeometries,
    zoneIdsHas, genericZoneIdsHas, nearestZoneByCentroid, jsMap, jsMapUpsert,
    jsMapGet, snapCoordinatesToFloor, zoneGeometryById, offAllHoles,
    allHolesNorm, allHoleBounds, pointInBounds, pointInPolygon, clampRange,
    HOLE_PADDING_NORM, ZONE_EDGE_PADDING_NORM, extractNote, jsIncludes,
    pointInZoneWalkable, polygonBounds, boundsInf, pairOf, List.findSome?]
  norm_num

set_option maxHeartbeats 2000000 in
/-- envC2 resolves zone z1 to zgC2. -/
theorem zoneGeometryById_envC2 : zoneGeometryById envC2 "z1" = some zgC2 := by
  simp [zoneGeometryById, zoneGeometries, buildZoneGeometries, envC2, env0,
    buildZoneCentroids, lookupLast, jsMap, jsMapUpsert, jsMapGet, polygonBounds,
    boundsInf, pairOf, clampRange, zgC2]
  norm_num

/-- Witness for C2: the concrete accepted record recC2 resolves to zone
z1 and its final point is walkable there or the centroid. -/
theorem C2_witness :
    pointInZoneWalkable evC2.x evC2.y zgC2 = true ∨
      (evC2.x = zgC2.centroid.1 ∧ evC2.y = zgC2.centroid.2) :=
  C2_adaptRawEvent_walkable_or_centroid envC2 recC2 {} evC2 zgC2
    adaptRawEvent_recC2 zoneGeometryById_envC2

/-! ### Claim C6: the spiral snap characterization -/

/-- Clamp a probe to the unit square (the first thing the `test` closure
does). -/
def clampProbe (p : ℚ × ℚ) : ℚ × ℚ := (clampRange p.1 0 1, clampRange p.2 0 1)

/-- Squared euclidean distance to the spiral origin. -/
def dist2To (x0 y0 : ℚ) (p : ℚ × ℚ) : ℚ :=
  (p.1 - x0) * (p.1 - x0) + (p.2 - y0) * (p.2 - y0)

/-- The walkable clamped candidates of one ring, in visit order. -/
def ringWalkable (x0 y0 step : ℚ) (pred : ℚ → ℚ → Bool) (ring : ℕ) :
    List (ℚ × ℚ) :=
  ((ringProbes x0 y0 step ring).map clampProbe).filter (fun p => pred p.1 p.2)

/-- Walkable clamped candidates of an arbitrary probe list. -/
def walkClamped (pred : ℚ → ℚ → Bool) (l : List (ℚ × ℚ)) : List (ℚ × ℚ) :=
  (l.map clampProbe).filter (fun p => pred p.1 p.2)

/-- What the ring fold's state says about the candidates seen so far:
empty ↔ no walkable candidate, otherwise the tracked best is a walkable
candidate at minimum squared distance. -/
def stDesc (x0 y0 : ℚ) (cands : List (ℚ × ℚ)) (st : Option (ℚ × ℚ × ℚ)) : Prop :=
  match st with
  | none => cands = []
  | some b => (b.1, b.2.1) ∈ cands ∧ b.2.2 = dist2To x0 y0 (b.1, b.2.1) ∧
      ∀ q ∈ cands, b.2.2 ≤ dist2To x0 y0 q

theorem walkClamped_cons_neg {pred : ℚ → ℚ → Bool} {p : ℚ × ℚ}
    (h : pred (clampProbe p).1 (clampProbe p).2 = false) (l : List (ℚ × ℚ)) :
    walkClamped pred (p :: l) = walkClamped pred l := by
  simp [walkClamped, List.filter_cons, h]

theorem walkClamped_cons_pos {pred : ℚ → ℚ → Bool} {p : ℚ × ℚ}
    (h : pred (clampProbe p).1 (clampProbe p).2 = true) (l : List (ℚ × ℚ)) :
    walkClamped pred (p :: l) = clampProbe p :: walkClamped pred l := by
  simp [walkClamped, List.filter_cons, h]

theorem foldl_ringTest_desc {x0 y0 : ℚ} {pred : ℚ → ℚ → Bool}
    (l : List (ℚ × ℚ)) :
    ∀ (cands : List (ℚ × ℚ)) (st : Option (ℚ × ℚ × ℚ)),
      stDesc x0 y0 cands st →
      stDesc x0 y0 (cands ++ walkClamped pred l)
        (l.foldl (ringTest x0 y0 pred) st) := by
  induction l with
  | nil => intro cands st h; simpa [walkClamped] using h
  | cons p rest ih =>
      intro cands st h
      rw [List.foldl_cons]
      cases hw : pred (clampProbe p).1 (clampProbe p).2 with
      | false =>
          rw [walkClamped_cons_neg hw]
          have hstep : ringTest x0 y0 pred st p = st := by
            simp only [ringTest, clampProbe] at hw ⊢
            rw [hw]
            simp
          rw [hstep]
          exact ih cands st h
      | true =>
          rw [walkClamped_cons_pos hw,
            show cands ++ clampProbe p :: walkClamped pred rest =
              (cands ++ [clampProbe p]) ++ walkClamped pred rest by simp]
          refine ih (cands ++ [clampProbe p]) _ ?_
          have hd : dist2To x0 y0 (clampProbe p) =
              (clampRange p.1 0 1 - x0) * (clampRange p.1 0 1 - x0) +
                (clampRange p.2 0 1 - y0) * (clampRange p.2 0 1 - y0) := by
            simp [dist2To, clampProbe]
          cases st with
          | none =>
              have hc : cands = [] := h
              subst hc
              have hstep : ringTest x0 y0 pred none p =
                  some ((clampProbe p).1, (clampProbe p).2,
                    dist2To x0 y0 (clampProbe p)) := by
                simp only [ringTest, clampProbe] at hw ⊢
                rw [hw]
                simp [hd, dist2To, clampProbe]
              rw [hstep]
              refine ⟨by simp, by simp, ?_⟩
              intro q hq
              simp at hq
              simp [hq]
          | some b =>
              obtain ⟨bx, bcy, bd⟩ := b
              obtain ⟨hmem, hbd, hmin⟩ := h
              simp only at hmem hbd hmin
              by_cases hlt : dist2To x0 y0 (clampProbe p) < bd
              · have hstep : ringTest x0 y0 pred (some (bx, bcy, bd)) p =
                    some ((clampProbe p).1, (clampProbe p).2,
                      dist2To x0 y0 (clampProbe p)) := by
                  simp only [ringTest, clampProbe] at hw ⊢
                  rw [hw]
                  simp only [Bool.not_true, Bool.false_eq_true, if_false]
                  rw [if_pos (by rw [← hd]; exact hlt)]
                  simp [hd, dist2To, clampProbe]
                rw [hstep]
                refine ⟨by simp [clampProbe], by simp [dist2To, clampProbe], ?_⟩
                intro q hq
                rcases List.mem_append.mp hq with hq | hq
                · exact le_of_lt (lt_of_lt_of_le hlt (hmin q hq))
                · simp at hq
                  simp [hq]
              · have hstep : ringTest x0 y0 pred (some (bx, bcy, bd)) p =
                    some (bx, bcy, bd) := by
                  simp only [ringTest, clampProbe] at hw ⊢
                  rw [hw]
                  simp only [Bool.not_true, Bool.false_eq_true, if_false]
                  rw [if_neg (by rw [← hd]; exact hlt)]
                rw [hstep]
                refine ⟨List.mem_append_left _ hmem, hbd, ?_⟩
                intro q hq
                rcases List.mem_append.mp hq with hq | hq
                · exact hmin q hq
                · simp at hq
                  subst hq
                  exact le_of_not_lt hlt

theorem ringBest_none_iff {x0 y0 step : ℚ} {pred : ℚ → ℚ → Bool} {ring : ℕ} :
    ringBest x0 y0 step pred ring = none ↔
      ringWalkable x0 y0 step pred ring = [] := by
  have hdesc := @foldl_ringTest_desc x0 y0 pred
    (ringProbes x0 y0 step ring) [] none rfl
  unfold ringBest
  cases hf : (ringProbes x0 y0 step ring).foldl (ringTest x0 y0 pred) none with
  | none =>
      rw [hf] at hdesc
      simp only [stDesc, List.nil_append] at hdesc
      constructor
      · intro _; exact hdesc
      · intro _; rfl
  | some b =>
      rw [hf] at hdesc
      simp only [stDesc, List.nil_append] at hdesc
      constructor
      · intro h; simp at h
      · intro h
        exfalso
        have := hdesc.1
        rw [show walkClamped pred (ringProbes x0 y0 step ring) =
          ringWalkable x0 y0 step pred ring from rfl, h] at this
        cases this

theorem ringBest_some_spec {x0 y0 step : ℚ} {pred : ℚ → ℚ → Bool} {ring : ℕ}
    {p : ℚ × ℚ} (h : ringBest x0 y0 step pred ring = some p) :
    p ∈ ringWalkable x0 y0 step pred ring ∧
      ∀ q ∈ ringWalkable x0 y0 step pred ring,
        dist2To x0 y0 p ≤ dist2To x0 y0 q := by
  have hdesc := @foldl_ringTest_desc x0 y0 pred
    (ringProbes x0 y0 step ring) [] none rfl
  unfold ringBest at h
  cases hf : (ringProbes x0 y0 step ring).foldl (ringTest x0 y0 pred) none with
  | none => rw [hf] at h; cases h
  | some b =>
      rw [hf] at h
      have h2 : some (b.1, b.2.1) = some p := h
      cases h2
      rw [hf] at hdesc
      simp only [stDesc, List.nil_append] at hdesc
      obtain ⟨hmem, hbd, hmin⟩ := hdesc
      refine ⟨hmem, ?_⟩
      intro q hq
      have := hmin q hq
      rw [hbd] at this
      exact this

theorem spiralAux_none_iff {x0 y0 step : ℚ} {pred : ℚ → ℚ → Bool} :
    ∀ {fuel ring : ℕ},
      spiralAux x0 y0 pred step ring fuel = none ↔
        ∀ r ∈ List.range' ring fuel, ringWalkable x0 y0 step pred r = [] := by
  intro fuel
  induction fuel with
  | zero => intro ring; simp [spiralAux]
  | succ n ih =>
      intro ring
      rw [List.range'_succ]
      unfold spiralAux
      cases hr : ringBest x0 y0 step pred ring with
      | some q =>
          simp only
          constructor
          · intro h; cases h
          · intro h
            exfalso
            have h0 := h ring (by simp)
            rw [ringBest_none_iff.mpr h0] at hr
            cases hr
      | none =>
          simp only
          rw [ih]
          constructor
          · intro h r hrmem
            rcases List.mem_cons.mp hrmem with rfl | hrmem
            · exact ringBest_none_iff.mp hr
            · exact h r hrmem
          · intro h r hrmem
            exact h r (List.mem_cons_of_mem _ hrmem)

theorem spiralAux_some_spec {x0 y0 step : ℚ} {pred : ℚ → ℚ → Bool} {p : ℚ × ℚ} :
    ∀ {fuel ring : ℕ}, spiralAux x0 y0 pred step ring fuel = some p →
      ∃ r ∈ List.range' ring fuel,
        (∀ r2 ∈ List.range' ring fuel, r2 < r →
          ringWalkable x0 y0 step pred r2 = []) ∧
        p ∈ ringWalkable x0 y0 step pred r ∧
        ∀ q ∈ ringWalkable x0 y0 step pred r,
          dist2To x0 y0 p ≤ dist2To x0 y0 q := by
  intro fuel
  induction fuel with
  | zero => intro ring h; cases h
  | succ n ih =>
      intro ring h
      unfold spiralAux at h
      cases hr : ringBest x0 y0 step pred ring with
      | some q =>
          rw [hr] at h
          cases h
          obtain ⟨hmem, hmin⟩ := ringBest_some_spec hr
          refine ⟨ring, by rw [List.range'_succ]; simp, ?_, hmem, hmin⟩
          intro r2 hr2 hlt
          rw [List.range'_succ] at hr2
          rcases List.mem_cons.mp hr2 with rfl | hr2
          · exact absurd hlt (lt_irrefl _)
          · obtain ⟨i, _, rfl⟩ := List.mem_range'.mp hr2
            omega
      | none =>
          rw [hr] at h
          obtain ⟨r, hrmem, hearlier, hmem, hmin⟩ := ih h
          refine ⟨r, ?_, ?_, hmem, hmin⟩
          · rw [List.range'_succ]
            exact List.mem_cons_of_mem _ hrmem
          · intro r2 hr2 hlt
            rw [List.range'_succ] at hr2
            rcases List.mem_cons.mp hr2 with rfl | hr2
            · exact ringBest_none_iff.mp hr
            · exact hearlier r2 hr2 hlt

/-- C6: for every starting point and every walkability predicate,
spiralSnap visits at most `maxRings` (by default 60) rings and stops:
it returns none exactly when no ring 1..maxRings holds any walkable
clamped sample, and otherwise returns a walkable point — a
minimum-squared-distance candidate of the first ring that yields any
walkable candidate. -/
theorem C6_spiralSnap_first_ring_minimum (x0 y0 step : ℚ)
    (pred : ℚ → ℚ → Bool) (maxRings : ℕ) :
    (spiralSnap x0 y0 pred step maxRings = none ↔
      ∀ r ∈ List.range' 1 maxRings, ringWalkable x0 y0 step pred r = []) ∧
    (∀ p, spiralSnap x0 y0 pred step maxRings = some p →
      pred p.1 p.2 = true ∧
      ∃ r ∈ List.range' 1 maxRings,
        (∀ r2 ∈ List.range' 1 maxRings, r2 < r →
          ringWalkable x0 y0 step pred r2 = []) ∧
        p ∈ ringWalkable x0 y0 step pred r ∧
        ∀ q ∈ ringWalkable x0 y0 step pred r,
          dist2To x0 y0 p ≤ dist2To x0 y0 q) := by
  constructor
  · exact spiralAux_none_iff
  · intro p hp
    obtain ⟨r, hrmem, hearlier, hmem, hmin⟩ := spiralAux_some_spec hp
    refine ⟨?_, r, hrmem, hearlier, hmem, hmin⟩
    have := List.mem_filter.mp hmem
    exact this.2

/-! ### Claim C3: the null-result characterization -/

/-- Identity failure: neither the first present explicit-id candidate
nor the first present track-id candidate parses. -/
def adaptIdFail (record : JObj) : Prop :=
  parseId (pickValue record explicitIdPaths) = none ∧
    parseId (pickValue record trackIdPaths) = none

/-- Timestamp failure: the first present detection-timestamp candidate
does not parse to a valid timestamp. -/
def adaptTsFail (env : Env) (record : JObj) : Prop :=
  parseEpochMs env (pickValue record detectedAtPaths) = none

/-- Coordinate failure: no method of the coordinate cascade resolves a
point. -/
def adaptCoordFail (env : Env) (record : JObj) : Prop :=
  extractCoordinates env record (parseId (pickValue record cameraIdPaths)) = none

theorem adaptRawEvent_none_cases (env : Env) (v : JVal) (opts : AdaptOptions)
    (r : JObj) (hrec : asRecord v = some r) :
    adaptRawEvent env v opts = none ↔
      (adaptIdFail r ∨ adaptTsFail env r ∨ adaptCoordFail env r) := by
  unfold adaptRawEvent
  rw [hrec]
  simp only
  cases hex : parseId (pickValue r explicitIdPaths) with
  | some i =>
      simp only [hex]
      cases hts : parseEpochMs env (pickValue r detectedAtPaths) with
      | none => simp [adaptIdFail, adaptTsFail, hex, hts]
      | some d =>
          simp only [hts]
          cases hco : extractCoordinates env r (parseId (pickValue r cameraIdPaths)) with
          | none => simp [adaptIdFail, adaptTsFail, adaptCoordFail, hex, hts, hco]
          | some c => simp [adaptIdFail, adaptTsFail, adaptCoordFail, hex, hts, hco]
  | none =>
      cases htrk : parseId (pickValue r trackIdPaths) with
      | none => simp [adaptIdFail, adaptTsFail, adaptCoordFail, hex, htrk]
      | some t =>
          simp only [hex, htrk]
          cases hts : parseEpochMs env (pickValue r detectedAtPaths) with
          | none => simp [adaptIdFail, adaptTsFail, hex, htrk, hts]
          | some d =>
              simp only [hts]
              cases hco : extractCoordinates env r
                  (parseId (pickValue r cameraIdPaths)) with
              | none =>
                  simp [adaptIdFail, adaptTsFail, adaptCoordFail, hex, htrk, hts, hco]
              | some c =>
                  simp [adaptIdFail, adaptTsFail, adaptCoordFail, hex, htrk, hts, hco]

/-- C3 (amended): adaptRawEvent returns null iff the input is not an
object, or no identity can be derived (the first present explicit-id
candidate does not parse and the first present track-id candidate does
not parse), or the first present timestamp candidate does not parse to a
valid timestamp, or no coordinate can be resolved by any method of the
cascade.  Candidates are tried in priority order; a present-but-invalid
candidate is not skipped in favor of a later valid one. -/
theorem C3_amended_adaptRawEvent_none_iff (env : Env) (v : JVal)
    (opts : AdaptOptions) :
    adaptRawEvent env v opts = none ↔
      asRecord v = none ∨
        ∃ r, asRecord v = some r ∧
          (adaptIdFail r ∨ adaptTsFail env r ∨ adaptCoordFail env r) := by
  cases hrec : asRecord v with
  | none => simp [adaptRawEvent, hrec]
  | some r =>
      rw [adaptRawEvent_none_cases env v opts r hrec]
      constructor
      · intro h
        exact Or.inr ⟨r, rfl, h⟩
      · rintro (h | ⟨r2, hr2, h⟩)
        · cases h
        · cases hr2
          exact h

/-- The fields of the C3 counterexample record: a present-but-garbage
detected_at hides the later valid ts candidate. -/
def recC3Fields : JObj :=
  [("id", JVal.str "e1"), ("detected_at", JVal.str "garbage"),
   ("ts", JVal.num 1700000000000), ("x", JVal.num (1/2)), ("y", JVal.num (1/2))]

/-- The C3 counterexample record. -/
def recC3 : JVal := JVal.obj recC3Fields

/-- Counterexample to C3 as stated: adaptRawEvent rejects recC3 even
though the record is an object, an identity is derivable, the candidate
field ts holds a valid timestamp, and a coordinate is resolvable — the
first present timestamp candidate (detected_at, garbage) is not skipped
in favor of the later valid one, so "no valid timestamp can be parsed
from any candidate field" does not characterize the null result. -/
theorem C3_counterexample :
    adaptRawEvent env0 recC3 {} = none ∧
    asRecord recC3 = some recC3Fields ∧
    parseId (pickValue recC3Fields explicitIdPaths) = some "e1" ∧
    ["ts"] ∈ detectedAtPaths ∧
    parseEpochMs env0 (readPath recC3Fields ["ts"]) = some 1700000000000 ∧
    extractCoordinates env0 recC3Fields
      (parseId (pickValue recC3Fields cameraIdPaths)) = some { x := 1/2, y := 1/2 } := by
  refine ⟨?_, rfl, ?_, by simp [detectedAtPaths], ?_, ?_⟩
  · simp [adaptRawEvent, asRecord, recC3, recC3Fields, env0, pickValue, readPath,
      readPathVal, lookupLast, parseId, jsTrim, jsTrimList, Char.isWhitespace,
      parseEpochMs, epochDispatch, normalizeEpoch, jsRound, MIN_VALID_EPOCH_MS,
      MAX_FUTURE_DRIFT_MS, cameraIdPaths, trackIdPaths, explicitIdPaths,
      detectedAtPaths, List.findSome?]
  · simp [pickValue, readPath, readPathVal, lookupLast, parseId, jsTrim,
      jsTrimList, Char.isWhitespace, explicitIdPaths, recC3Fields, List.findSome?]
  · simp only [readPath, readPathVal, recC3Fields, lookupLast]
    simp [parseEpochMs, epochDispatch, normalizeEpoch, jsRound, env0,
      MIN_VALID_EPOCH_MS, MAX_FUTURE_DRIFT_MS]
    norm_num
  · simp [extractCoordinates, xPaths, yPaths, pickValue, readPath, readPathVal,
      lookupLast, recC3Fields, cameraIdPaths, parseId, jsTrim, jsTrimList,
      Char.isWhitespace, List.findSome?, normalizeCoordinate, parseNumber, env0]
    norm_num

/-! ### Claim C4: the feed pipeline -/

/-- "Strictly newer" by (detected_at, then ingested_at), the replacement
criterion of the deduplication fold. -/
def newerThan (f e : EventItem) : Prop :=
  e.detected_at < f.detected_at ∨
    (f.detected_at = e.detected_at ∧ e.ingested_at < f.ingested_at)

theorem newerThan_irrefl (e : EventItem) : ¬ newerThan e e := by
  rintro (h | ⟨_, h⟩) <;> exact absurd h (lt_irrefl _)

theorem newerThan_trans {f e g : EventItem} (h1 : newerThan f e)
    (h2 : newerThan e g) : newerThan f g := by
  rcases h1 with h1 | ⟨h1e, h1i⟩ <;> rcases h2 with h2 | ⟨h2e, h2i⟩
  · exact Or.inl (lt_trans h2 h1)
  · exact Or.inl (h2e ▸ h1)
  · exact Or.inl (h1e ▸ h2)
  · exact Or.inr ⟨h1e.trans h2e, lt_trans h2i h1i⟩

/-! jsMap entry-list lemmas -/

theorem jsMapUpsert_keys_present {α : Type} {m : List (String × α)} {k : String}
    {v : α} (h : m.any (fun p => p.1 == k) = true) :
    (jsMapUpsert m k v).map Prod.fst = m.map Prod.fst := by
  unfold jsMapUpsert
  rw [if_pos h]
  rw [List.map_map]
  apply List.map_congr_left
  intro p _
  by_cases hp : p.1 = k
  · simp [hp]
  · simp [hp]

theorem jsMapUpsert_keys_absent {α : Type} {m : List (String × α)} {k : String}
    {v : α} (h : m.any (fun p => p.1 == k) = false) :
    (jsMapUpsert m k v).map Prod.fst = m.map Prod.fst ++ [k] := by
  unfold jsMapUpsert
  rw [if_neg (by simp [h])]
  simp

theorem jsMapUpsert_mem {α : Type} {m : List (String × α)} {k : String} {v : α}
    {q : String × α} (hq : q ∈ jsMapUpsert m k v) :
    (q ∈ m ∧ q.1 ≠ k) ∨ q = (k, v) := by
  unfold jsMapUpsert at hq
  split at hq
  · next hpresent =>
      obtain ⟨p, hp, hpq⟩ := List.mem_map.mp hq
      by_cases hk : p.1 == k
      · rw [if_pos hk] at hpq
        exact Or.inr hpq.symm
      · rw [if_neg hk] at hpq
        refine Or.inl ⟨hpq ▸ hp, ?_⟩
        rw [← hpq]
        simpa using hk
  · next habsent =>
      rcases List.mem_append.mp hq with h | h
      · refine Or.inl ⟨h, ?_⟩
        intro hk
        rw [List.any_eq_true] at habsent
        exact habsent ⟨q, h, by simp [hk]⟩
      · simp at h
        exact Or.inr h

theorem jsMapUpsert_mem_of_ne {α : Type} {m : List (String × α)} {k : String}
    {v : α} {p : String × α} (hp : p ∈ m) (hne : p.1 ≠ k) :
    p ∈ jsMapUpsert m k v := by
  unfold jsMapUpsert
  split
  · exact List.mem_map.mpr ⟨p, hp, by rw [if_neg (by simpa using hne)]⟩
  · exact List.mem_append_left _ hp

theorem jsMapUpsert_self {α : Type} (m : List (String × α)) (k : String)
    (v : α) : (k, v) ∈ jsMapUpsert m k v := by
  unfold jsMapUpsert
  split
  · next hpresent =>
      rw [List.any_eq_true] at hpresent
      obtain ⟨q, hq, hqk⟩ := hpresent
      simp at hqk
      exact List.mem_map.mpr ⟨q, hq, by rw [if_pos (by simpa using hqk)]⟩
  · exact List.mem_append_right _ (by simp)

theorem jsMapGet_none_not_mem {α : Type} {m : List (String × α)} {k : String}
    (h : jsMapGet m k = none) : ∀ p ∈ m, p.1 ≠ k := by
  intro p hp hk
  unfold jsMapGet at h
  cases hf : m.find? (fun p => p.1 == k) with
  | some q => rw [hf] at h; cases h
  | none =>
      have := List.find?_eq_none.mp hf p hp
      simp [hk] at this

theorem jsMapGet_entry {α : Type} {m : List (String × α)} {k : String} {v : α}
    (h : jsMapGet m k = some v) : (k, v) ∈ m := by
  unfold jsMapGet at h
  cases hf : m.find? (fun p => p.1 == k) with
  | none => rw [hf] at h; cases h
  | some q =>
      rw [hf] at h
      simp at h
      have hq := List.mem_of_find?_eq_some hf
      have hqk : q.1 = k := by simpa using List.find?_some hf
      have : q = (k, v) := by
        cases q
        simp at hqk h
        simp [hqk, h]
      exact this ▸ hq

theorem jsMapGet_eq_of_mem {α : Type} {m : List (String × α)} {k : String}
    {p : String × α} (hnd : (m.map Prod.fst).Nodup) (hp : p ∈ m)
    (hk : p.1 = k) : jsMapGet m k = some p.2 := by
  induction m with
  | nil => cases hp
  | cons q rest ih =>
      rcases List.mem_cons.mp hp with rfl | hp2
      · unfold jsMapGet
        rw [List.find?_cons_of_pos _ (by simp [hk])]
        rfl
      · have hqk : q.1 ≠ k := by
          intro hqk
          have : q.1 ∈ rest.map Prod.fst := hqk ▸ hk ▸ List.mem_map_of_mem _ hp2
          exact (List.nodup_cons.mp hnd).1 this
        unfold jsMapGet
        rw [List.find?_cons_of_neg _ (by simp [hqk])]
        exact ih (List.nodup_cons.mp hnd).2 hp2

theorem entries_eq_of_key {α : Type} {m : List (String × α)}
    (hnd : (m.map Prod.fst).Nodup) {p q : String × α} (hp : p ∈ m) (hq : q ∈ m)
    (hk : p.1 = q.1) : p = q := by
  have h1 := jsMapGet_eq_of_mem hnd hp rfl
  have h2 := jsMapGet_eq_of_mem hnd hq hk.symm
  rw [h1] at h2
  cases p
  cases q
  simp at hk h2 ⊢
  exact ⟨hk, h2⟩

/-- The invariant the deduplication fold maintains: keys are distinct,
every entry is an id-keyed event drawn from the processed prefix, every
processed event's id is present, and no processed event with the same id
is strictly newer than the kept one. -/
def dedupInv (processed : List EventItem) (m : List (String × EventItem)) : Prop :=
  (m.map Prod.fst).Nodup ∧
  (∀ p ∈ m, p.1 = p.2.id ∧ p.2 ∈ processed) ∧
  (∀ f ∈ processed, ∃ p ∈ m, p.1 = f.id) ∧
  (∀ p ∈ m, ∀ f ∈ processed, f.id = p.1 → ¬ newerThan f p.2)

/-- One step of the deduplication fold. -/
def dedupStep (m : List (String × EventItem)) (event : EventItem) :
    List (String × EventItem) :=
  match jsMapGet m event.id with
  | none => jsMapUpsert m event.id event
  | some existing =>
      if event.detected_at > existing.detected_at then
        jsMapUpsert m event.id event
      else if event.detected_at = existing.detected_at ∧
          event.ingested_at > existing.ingested_at then
        jsMapUpsert m event.id event
      else m

theorem dedupNewer_eq_foldl (events : List EventItem) :
    dedupNewer events = events.foldl dedupStep [] := by
  unfold dedupNewer dedupStep
  rfl

/-- Replacing (or inserting) the entry of `event.id` preserves the
invariant as long as nothing processed with that id is strictly newer
than `event`. -/
theorem dedupInv_upsert {processed : List EventItem}
    {m : List (String × EventItem)} (hinv : dedupInv processed m)
    {event : EventItem}
    (hnotnewer : ∀ f ∈ processed, f.id = event.id → ¬ newerThan f event) :
    dedupInv (processed ++ [event]) (jsMapUpsert m event.id event) := by
  obtain ⟨hnd, hent, hcov, hmax⟩ := hinv
  refine ⟨?_, ?_, ?_, ?_⟩
  · cases hpres : m.any (fun p => p.1 == event.id) with
    | true => rw [jsMapUpsert_keys_present hpres]; exact hnd
    | false =>
        rw [jsMapUpsert_keys_absent hpres]
        rw [List.nodup_append]
        refine ⟨hnd, List.nodup_singleton _, ?_⟩
        intro a ha
        obtain ⟨p, hp, rfl⟩ := List.mem_map.mp ha
        intro hk
        rw [List.mem_singleton] at hk
        rw [List.any_eq_false] at hpres
        exact absurd hk (by simpa using hpres p hp)
  · intro p hp
    rcases jsMapUpsert_mem hp with ⟨hp, _⟩ | rfl
    · exact ⟨(hent p hp).1, List.mem_append_left _ (hent p hp).2⟩
    · exact ⟨rfl, List.mem_append_right _ (by simp)⟩
  · intro f hf
    rcases List.mem_append.mp hf with hf | hf
    · obtain ⟨p, hp, hpk⟩ := hcov f hf
      by_cases hpe : p.1 = event.id
      · exact ⟨(event.id, event), jsMapUpsert_self m _ _, hpe ▸ hpk⟩
      · exact ⟨p, jsMapUpsert_mem_of_ne hp hpe, hpk⟩
    · simp at hf
      subst hf
      exact ⟨(f.id, f), jsMapUpsert_self m _ _, rfl⟩
  · intro p hp f hf hid
    rcases jsMapUpsert_mem hp with ⟨hp, hpne⟩ | rfl
    · rcases List.mem_append.mp hf with hf | hf
      · exact hmax p hp f hf hid
      · simp at hf
        subst hf
        exact absurd hid.symm hpne
    · rcases List.mem_append.mp hf with hf | hf
      · exact hnotnewer f hf hid
      · simp at hf
        subst hf
        exact newerThan_irrefl _

theorem dedupStep_inv {processed : List EventItem}
    {m : List (String × EventItem)} (hinv : dedupInv processed m)
    (event : EventItem) :
    dedupInv (processed ++ [event]) (dedupStep m event) := by
  have hinv2 := hinv
  obtain ⟨hnd, hent, hcov, hmax⟩ := hinv2
  cases hget : jsMapGet m event.id with
  | none =>
      simp only [dedupStep, hget]
      refine dedupInv_upsert hinv ?_
      intro f hf hid
      obtain ⟨p, hp, hpk⟩ := hcov f hf
      exact absurd (hpk.trans hid) (jsMapGet_none_not_mem hget p hp)
  | some existing =>
      simp only [dedupStep, hget]
      have hentry : (event.id, existing) ∈ m := jsMapGet_entry hget
      by_cases hdet : event.detected_at > existing.detected_at
      · rw [if_pos hdet]
        refine dedupInv_upsert hinv ?_
        intro f hf hid hnew
        exact hmax (event.id, existing) hentry f hf hid
          (newerThan_trans hnew (Or.inl hdet))
      · rw [if_neg hdet]
        by_cases htie : event.detected_at = existing.detected_at ∧
            event.ingested_at > existing.ingested_at
        · rw [if_pos htie]
          refine dedupInv_upsert hinv ?_
          intro f hf hid hnew
          exact hmax (event.id, existing) hentry f hf hid
            (newerThan_trans hnew (Or.inr htie))
        · rw [if_neg htie]
          refine ⟨hnd, ?_, ?_, ?_⟩
          · intro p hp
            exact ⟨(hent p hp).1, List.mem_append_left _ (hent p hp).2⟩
          · intro f hf
            rcases List.mem_append.mp hf with hf | hf
            · exact hcov f hf
            · simp at hf
              subst hf
              exact ⟨(f.id, existing), hentry, rfl⟩
          · intro p hp f hf hid
            rcases List.mem_append.mp hf with hf | hf
            · exact hmax p hp f hf hid
            · simp at hf
              subst hf
              have hpq : p = (f.id, existing) :=
                entries_eq_of_key hnd hp hentry hid.symm
              rw [hpq]
              rintro (h | ⟨h1, h2⟩)
              · exact hdet h
              · exact htie ⟨h1, h2⟩

theorem dedupNewer_inv (events : List EventItem) :
    dedupInv events (dedupNewer events) := by
  rw [dedupNewer_eq_foldl]
  have hgen : ∀ (l : List EventItem) (processed : List EventItem)
      (m : List (String × EventItem)), dedupInv processed m →
      dedupInv (processed ++ l) (l.foldl dedupStep m) := by
    intro l
    induction l with
    | nil => intro processed m h; simpa using h
    | cons e rest ih =>
        intro processed m h
        rw [List.foldl_cons,
          show processed ++ e :: rest = (processed ++ [e]) ++ rest by simp]
        exact ih _ _ (dedupStep_inv h e)
  simpa using hgen events [] [] ⟨by simp, by simp, by simp, by simp⟩

/-- The propositional reading of the feed comparator. -/
def feedRel (a b : EventItem) : Prop :=
  b.detected_at < a.detected_at ∨
    (a.detected_at = b.detected_at ∧ b.ingested_at < a.ingested_at) ∨
    (a.detected_at = b.detected_at ∧ a.ingested_at = b.ingested_at ∧ a.id ≤ b.id)

theorem feedLE_iff (a b : EventItem) : feedLE a b = true ↔ feedRel a b := by
  unfold feedLE feedRel
  by_cases h1 : a.detected_at = b.detected_at
  · rw [if_neg (by simp [h1])]
    by_cases h2 : a.ingested_at = b.ingested_at
    · rw [if_neg (by simp [h2])]
      simp [h1, h2]
    · rw [if_pos (by simp [h2])]
      simp [h1, h2]
  · rw [if_pos (by simp [h1])]
    simp [h1]

theorem feedRel_trans {a b c : EventItem} (h1 : feedRel a b) (h2 : feedRel b c) :
    feedRel a c := by
  rcases h1 with h1 | ⟨h1e, h1i⟩ | ⟨h1e, h1i, h1s⟩ <;>
    rcases h2 with h2 | ⟨h2e, h2i⟩ | ⟨h2e, h2i, h2s⟩
  · exact Or.inl (lt_trans h2 h1)
  · exact Or.inl (h2e ▸ h1)
  · exact Or.inl (h2e ▸ h1)
  · exact Or.inl (h1e ▸ h2)
  · exact Or.inr (Or.inl ⟨h1e.trans h2e, lt_trans h2i h1i⟩)
  · exact Or.inr (Or.inl ⟨h1e.trans h2e, h2i ▸ h1i⟩)
  · exact Or.inl (h1e ▸ h2)
  · exact Or.inr (Or.inl ⟨h1e.trans h2e, h1i ▸ h2i⟩)
  · exact Or.inr (Or.inr ⟨h1e.trans h2e, h1i.trans h2i, h1s.trans h2s⟩)

theorem feedRel_total (a b : EventItem) : feedRel a b ∨ feedRel b a := by
  rcases lt_trichotomy a.detected_at b.detected_at with h | h | h
  · exact Or.inr (Or.inl h)
  · rcases lt_trichotomy a.ingested_at b.ingested_at with hi | hi | hi
    · exact Or.inr (Or.inr (Or.inl ⟨h.symm, hi⟩))
    · rcases le_total a.id b.id with hs | hs
      · exact Or.inl (Or.inr (Or.inr ⟨h, hi, hs⟩))
      · exact Or.inr (Or.inr (Or.inr ⟨h.symm, hi.symm, hs⟩))
    · exact Or.inl (Or.inr (Or.inl ⟨h, hi⟩))
  · exact Or.inl (Or.inl h)

theorem feedLE_trans (a b c : EventItem) (h1 : feedLE a b = true)
    (h2 : feedLE b c = true) : feedLE a c = true :=
  (feedLE_iff a c).mpr (feedRel_trans ((feedLE_iff a b).mp h1)
    ((feedLE_iff b c).mp h2))

theorem feedLE_total (a b : EventItem) : (feedLE a b || feedLE b a) = true := by
  rcases feedRel_total a b with h | h
  · simp [(feedLE_iff a b).mpr h]
  · simp [(feedLE_iff b a).mpr h]

/-- C4: normalizeEventFeed normalizes every element, drops records that
normalize to null, deduplicates by id keeping the event that is newest
by (detected_at, then ingested_at), sorts descending by detected_at,
then descending by ingested_at, then by id as lexicographic tiebreak,
and truncates to at most maxEvents clamped to 1..1000. -/
theorem C4_normalizeEventFeed_spec (env : Env) (raw : List JVal)
    (opts : NormalizeOptions) :
    let out := normalizeEventFeed env raw opts
    let normalized := raw.filterMap (fun v => adaptRawEvent env v opts.toAdapt)
    (1 ≤ safeMaxEvents opts ∧ safeMaxEvents opts ≤ 1000 ∧
      out.length ≤ sliceCount (safeMaxEvents opts)) ∧
    (∀ e ∈ out, ∃ v ∈ raw, adaptRawEvent env v opts.toAdapt = some e) ∧
    (out.map EventItem.id).Nodup ∧
    (∀ e ∈ out, ∀ v ∈ raw, ∀ f, adaptRawEvent env v opts.toAdapt = some f →
      f.id = e.id → ¬ newerThan f e) ∧
    out.Pairwise (fun a b => feedLE a b = true) ∧
    ((dedupNewer normalized).length ≤ sliceCount (safeMaxEvents opts) →
      ∀ v ∈ raw, ∀ f, adaptRawEvent env v opts.toAdapt = some f →
        ∃ e ∈ out, e.id = f.id) := by
  intro out normalized
  have hinv := dedupNewer_inv normalized
  obtain ⟨hnd, hent, hcov, hmax⟩ := hinv
  have hperm : List.Perm (((dedupNewer normalized).map Prod.snd).mergeSort
      feedLE) ((dedupNewer normalized).map Prod.snd) :=
    List.mergeSort_perm _ _
  have houtdef : out = (((dedupNewer normalized).map Prod.snd).mergeSort
      feedLE).take (sliceCount (safeMaxEvents opts)) := rfl
  have hmem_out : ∀ e ∈ out, ∃ p ∈ dedupNewer normalized, p.2 = e := by
    intro e he
    rw [houtdef] at he
    have := hperm.mem_iff.mp (List.mem_of_mem_take he)
    obtain ⟨p, hp, hpe⟩ := List.mem_map.mp this
    exact ⟨p, hp, hpe⟩
  refine ⟨⟨le_max_left _ _, max_le (by norm_num)
      ((min_le_left _ _)), ?_⟩, ?_, ?_, ?_, ?_, ?_⟩
  · rw [houtdef, List.length_take]
    exact min_le_left _ _
  · intro e he
    obtain ⟨p, hp, rfl⟩ := hmem_out e he
    have := (hent p hp).2
    exact List.mem_filterMap.mp this
  · have hids : (dedupNewer normalized).map (fun p => p.2.id) =
        (dedupNewer normalized).map Prod.fst := by
      apply List.map_congr_left
      intro p hp
      exact ((hent p hp).1).symm
    have hvalsnd : (((dedupNewer normalized).map Prod.snd).map
        EventItem.id).Nodup := by
      rw [List.map_map]
      rw [show (EventItem.id ∘ Prod.snd : String × EventItem → String) =
        (fun p => p.2.id) from rfl]
      rw [hids]
      exact hnd
    have hsortnd : ((((dedupNewer normalized).map Prod.snd).mergeSort
        feedLE).map EventItem.id).Nodup :=
      ((hperm.map EventItem.id).nodup_iff).mpr hvalsnd
    rw [houtdef, List.map_take]
    exact List.Nodup.sublist (List.take_sublist _ _) hsortnd
  · intro e he v hv f hf hfid
    obtain ⟨p, hp, rfl⟩ := hmem_out e he
    refine hmax p hp f ?_ (hfid.trans (hent p hp).1.symm)
    exact List.mem_filterMap.mpr ⟨v, hv, hf⟩
  · have hsorted := @List.sorted_mergeSort _ feedLE feedLE_trans
      feedLE_total ((dedupNewer normalized).map Prod.snd)
    rw [houtdef]
    exact List.Pairwise.sublist (List.take_sublist _ _) hsorted
  · intro hlen v hv f hf
    obtain ⟨p, hp, hpk⟩ := hcov f (List.mem_filterMap.mpr ⟨v, hv, hf⟩)
    have hpv : p.2 ∈ out := by
      rw [houtdef]
      rw [List.take_of_length_le]
      · exact hperm.mem_iff.mpr (List.mem_map_of_mem Prod.snd hp)
      · rw [hperm.length_eq, List.length_map]
        exact hlen
    exact ⟨p.2, hpv, (hent p hp).1 ▸ hpk.symm ▸ rfl⟩

/-! ### Claim C7: merging into the canonical event set -/

/-- The last event of a list carrying a given id. -/
def lastWithId (l : List EventItem) (id : String) : Option EventItem :=
  (l.filter (fun e => e.id == id)).getLast?

theorem getLast?_cons_of_ne_nil {α : Type} {l : List α} (a : α) (h : l ≠ []) :
    (a :: l).getLast? = l.getLast? := by
  cases l with
  | nil => exact absurd rfl h
  | cons b rest => exact List.getLast?_cons_cons

theorem lastWithId_some_mem {l : List EventItem} {id : String} {e : EventItem}
    (h : lastWithId l id = some e) : e ∈ l ∧ e.id = id := by
  unfold lastWithId at h
  have hmem := List.mem_of_mem_getLast? h
  refine ⟨List.mem_of_mem_filter hmem, ?_⟩
  have := List.of_mem_filter hmem
  simpa using this

/-- The merge fold of mergeEvents. -/
def mergeFold (m : List (String × EventItem)) (incoming : List EventItem) :
    List (String × EventItem) :=
  incoming.foldl (fun acc event => jsMapUpsert acc event.id event) m

theorem mergeFold_mem {incoming : List EventItem} :
    ∀ {m : List (String × EventItem)} {q : String × EventItem},
      q ∈ mergeFold m incoming →
      (q ∈ m ∧ ∀ f ∈ incoming, f.id ≠ q.1) ∨
        (q.2 ∈ incoming ∧ q.1 = q.2.id ∧ lastWithId incoming q.1 = some q.2) := by
  induction incoming with
  | nil =>
      intro m q hq
      exact Or.inl ⟨hq, by simp⟩
  | cons e rest ih =>
      intro m q hq
      rw [show mergeFold m (e :: rest) = mergeFold (jsMapUpsert m e.id e) rest
        from rfl] at hq
      rcases ih hq with ⟨hmem, hnone⟩ | ⟨hmem, hkey, hlast⟩
      · rcases jsMapUpsert_mem hmem with ⟨hm, hne⟩ | rfl
        · refine Or.inl ⟨hm, ?_⟩
          intro f hf
          rcases List.mem_cons.mp hf with rfl | hf
          · exact fun hc => hne hc.symm
          · exact hnone f hf
        · refine Or.inr ⟨List.mem_cons_self _ _, rfl, ?_⟩
          unfold lastWithId
          rw [List.filter_cons]
          rw [if_pos (by simp)]
          have hrest : rest.filter (fun f => f.id == e.id) = [] := by
            rw [List.filter_eq_nil_iff]
            intro f hf
            simpa using hnone f hf
          rw [hrest]
          rfl
      · refine Or.inr ⟨List.mem_cons_of_mem _ hmem, hkey, ?_⟩
        unfold lastWithId at hlast ⊢
        rw [List.filter_cons]
        have hfilter_ne : rest.filter (fun f => f.id == q.1) ≠ [] := by
          intro hnil
          rw [hnil] at hlast
          cases hlast
        split
        · rw [getLast?_cons_of_ne_nil _ hfilter_ne]
          exact hlast
        · exact hlast

/-- Every entry of a built JavaScript Map is one of the source entries. -/
theorem jsMap_subset {α : Type} (l : List (String × α)) :
    ∀ q ∈ jsMap l, q ∈ l := by
  have hgen : ∀ (l2 m : List (String × α)), (∀ q ∈ m, q ∈ l) →
      (∀ p ∈ l2, p ∈ l) →
      ∀ q ∈ l2.foldl (fun m p => jsMapUpsert m p.1 p.2) m, q ∈ l := by
    intro l2
    induction l2 with
    | nil => intro m hm _ q hq; exact hm q hq
    | cons p rest ih =>
        intro m hm hl q hq
        rw [List.foldl_cons] at hq
        refine ih (jsMapUpsert m p.1 p.2) ?_ (fun p2 hp2 => hl p2
          (List.mem_cons_of_mem _ hp2)) q hq
        intro q2 hq2
        rcases jsMapUpsert_mem hq2 with ⟨hq2, _⟩ | rfl
        · exact hm q2 hq2
        · exact hl p (List.mem_cons_self _ _)
  intro q hq
  exact hgen l [] (by simp) (fun _ hp => hp) q hq

/-- Entries of the merged map are id-keyed. -/
theorem mergeFold_keyed {existing incoming : List EventItem}
    {q : String × EventItem}
    (hq : q ∈ mergeFold (jsMap (existing.map (fun e => (e.id, e)))) incoming) :
    q.1 = q.2.id := by
  rcases mergeFold_mem hq with ⟨hmem, _⟩ | ⟨_, hkey, _⟩
  · have := jsMap_subset _ q hmem
    obtain ⟨e, _, rfl⟩ := List.mem_map.mp this
    rfl
  · exact hkey

/-- C7 (amended): when a batch is merged into the canonical event set by
mergeEvents, an incoming event always replaces an existing event with the
same id, wholesale and regardless of timestamps — the event kept for an
id that occurs in the incoming batch is the last incoming event with
that id, never the existing one. -/
theorem C7_amended_mergeEvents_incoming_wins (existing incoming : List EventItem)
    (id : String) (e : EventItem) (hlast : lastWithId incoming id = some e) :
    ∀ f ∈ mergeEvents existing incoming, f.id = id → f = e := by
  intro f hf hfid
  have hperm : List.Perm (((mergeFold (jsMap (existing.map (fun e => (e.id, e))))
      incoming).map Prod.snd).mergeSort feedLE)
      ((mergeFold (jsMap (existing.map (fun e => (e.id, e)))) incoming).map
        Prod.snd) := List.mergeSort_perm _ _
  have hf2 : f ∈ (mergeFold (jsMap (existing.map (fun e => (e.id, e))))
      incoming).map Prod.snd := by
    have : f ∈ ((mergeFold (jsMap (existing.map (fun e => (e.id, e))))
        incoming).map Prod.snd).mergeSort feedLE :=
      List.mem_of_mem_take hf
    exact hperm.mem_iff.mp this
  obtain ⟨p, hp, rfl⟩ := List.mem_map.mp hf2
  have hkey : p.1 = p.2.id := mergeFold_keyed hp
  rcases mergeFold_mem hp with ⟨_, hnone⟩ | ⟨_, _, hlast2⟩
  · exfalso
    obtain ⟨hemem, heid⟩ := lastWithId_some_mem hlast
    exact hnone e hemem (heid.trans (hkey.trans hfid).symm)
  · rw [hkey, hfid] at hlast2
    rw [hlast] at hlast2
    exact (Option.some.inj hlast2).symm

/-- A base event used by the concrete merge scenarios. -/
def baseEv : EventItem :=
  { id := "a"
    store_id := "s001"
    detected_at := 200
    ingested_at := 200
    latency_ms := 0
    type := EventType.unknown
    severity := 1
    confidence := 78/100
    zone_id := "z1"
    camera_id := none
    track_id := none
    object_label := none
    raw_status := some "open"
    source := EventSource.api
    model_version := none
    incident_status := IncidentStatus.new
    x := 1/2
    y := 1/2
    world_x_m := none
    world_z_m := none
    note := none }

/-- An existing event with detected_at 200. -/
def e1cex : EventItem := baseEv

/-- An incoming event with the same id but detected_at 100 — strictly
older than e1cex. -/
def e2cex : EventItem := { baseEv with detected_at := 100, ingested_at := 100 }

/-- Counterexample to C7 as stated: the incoming event e2cex is not
strictly newer than the existing e1cex (it is strictly older), yet
mergeEvents replaces the existing event with it wholesale. -/
theorem C7_counterexample :
    mergeEvents [e1cex] [e2cex] = [e2cex] ∧ ¬ newerThan e2cex e1cex ∧
      e2cex ≠ e1cex := by
  refine ⟨?_, ?_, ?_⟩
  · show (((mergeFold (jsMap [(e1cex.id, e1cex)]) [e2cex]).map
      Prod.snd).mergeSort feedLE).take MAX_EVENTS = [e2cex]
    have h1 : jsMap [(e1cex.id, e1cex)] = [(e1cex.id, e1cex)] := by
      simp [jsMap, jsMapUpsert]
    have h2 : mergeFold [(e1cex.id, e1cex)] [e2cex] = [(e1cex.id, e2cex)] := by
      simp [mergeFold, jsMapUpsert, e1cex, e2cex, baseEv]
    rw [h1, h2]
    simp [List.mergeSort_singleton, MAX_EVENTS]
  · rintro (h | ⟨h1, h2⟩)
    · norm_num [e1cex, e2cex, baseEv] at h
    · norm_num [e1cex, e2cex, baseEv] at h1
  · intro h
    have := congrArg EventItem.detected_at h
    norm_num [e1cex, e2cex, baseEv] at this

/-- Witness for the amended C7: at the concrete one-event lists, the
event kept for id a is the (older) incoming e2cex. -/
theorem C7_witness : e2cex = e2cex :=
  C7_amended_mergeEvents_incoming_wins [e1cex] [e2cex] "a" e2cex
    (by simp [lastWithId, e2cex, baseEv])
    e2cex
    (by
      have h1 : jsMap [(e1cex.id, e1cex)] = [(e1cex.id, e1cex)] := by
        simp [jsMap, jsMapUpsert]
      have h2 : mergeFold [(e1cex.id, e1cex)] [e2cex] = [(e1cex.id, e2cex)] := by
        simp [mergeFold, jsMapUpsert, e1cex, e2cex, baseEv]
      show e2cex ∈ (((mergeFold (jsMap [(e1cex.id, e1cex)]) [e2cex]).map
        Prod.snd).mergeSort feedLE).take MAX_EVENTS
      rw [h1, h2]
      simp [List.mergeSort_singleton, MAX_EVENTS])
    rfl

/-! ### Claim C10: frame-relative bbox normalization -/

/-- Counterexample to C10 as stated: 0.5 lies in [0, 100] but is passed
through unchanged, not divided by 100. -/
theorem C10_counterexample :
    normalizeCoordinateWithFrame (1/2) 500 = some (1/2) ∧
      (1/2 : ℚ) / 100 = 1/200 ∧ (1/2 : ℚ) ≠ 1/200 := by
  refine ⟨?_, by norm_num, by norm_num⟩
  unfold normalizeCoordinateWithFrame
  rw [if_pos (by norm_num)]

/-- C10 (amended): in frame-relative bbox normalization, a coordinate in
[0, 1] passes through unchanged; a coordinate in (1, 100] is divided by
100 regardless of any declared frame size; division by the declared
frame size applies exactly to the remaining values (negative or greater
than 100) and only when the frame size is positive — so a pixel
coordinate 20 on a declared 500-pixel-wide frame yields 0.2, not
20/500. -/
theorem C10_amended_normalizeCoordinateWithFrame_spec (value frameSize : ℚ) :
    (0 ≤ value ∧ value ≤ 1 →
      normalizeCoordinateWithFrame value frameSize = some value) ∧
    (1 < value ∧ value ≤ 100 →
      normalizeCoordinateWithFrame value frameSize =
        some (clampRange (value / 100) 0 1)) ∧
    ((value < 0 ∨ 100 < value) → 0 < frameSize →
      normalizeCoordinateWithFrame value frameSize =
        some (clampRange (value / frameSize) 0 1)) ∧
    ((value < 0 ∨ 100 < value) → frameSize ≤ 0 →
      normalizeCoordinateWithFrame value frameSize = none) ∧
    normalizeCoordinateWithFrame 20 500 = some (1/5) := by
  refine ⟨?_, ?_, ?_, ?_, ?_⟩
  · rintro ⟨h0, h1⟩
    unfold normalizeCoordinateWithFrame
    rw [if_pos ⟨h0, h1⟩]
  · rintro ⟨h1, h100⟩
    unfold normalizeCoordinateWithFrame
    rw [if_neg (by rintro ⟨_, hle⟩; linarith),
      if_pos ⟨by linarith, h100⟩]
  · intro h hf
    unfold normalizeCoordinateWithFrame
    rcases h with h | h
    · rw [if_neg (by rintro ⟨h0, _⟩; linarith),
        if_neg (by rintro ⟨h0, _⟩; linarith), if_pos hf]
    · rw [if_neg (by rintro ⟨_, h1⟩; linarith),
        if_neg (by rintro ⟨_, h1⟩; linarith), if_pos hf]
  · intro h hf
    unfold normalizeCoordinateWithFrame
    rcases h with h | h
    · rw [if_neg (by rintro ⟨h0, _⟩; linarith),
        if_neg (by rintro ⟨h0, _⟩; linarith), if_neg (not_lt.mpr hf)]
    · rw [if_neg (by rintro ⟨_, h1⟩; linarith),
        if_neg (by rintro ⟨_, h1⟩; linarith), if_neg (not_lt.mpr hf)]
  · unfold normalizeCoordinateWithFrame
    rw [if_neg (by norm_num), if_pos (by norm_num)]
    norm_num [clampRange]

/-! ### MapView: the bounded-grid projection (claim C8) -/

/-- ROBOT_HOLE_PADDING_NORM of MapView. -/
def ROBOT_HOLE_PADDING_NORM : ℚ := 14/1000

/-- ROBOT_ZONE_EDGE_PADDING_NORM of MapView. -/
def ROBOT_ZONE_EDGE_PADDING_NORM : ℚ := 4/1000

/-- ZONE_SAMPLE_STEPS of MapView. -/
def ZONE_SAMPLE_STEPS : ℕ := 24

/-- A zone surface as MapView builds it (polygon and holes come from the
zone map through the geo helpers). -/
structure ZoneSurface where
  id : String
  name : String
  polygon : List (ℚ × ℚ)
  holes : List (List (ℚ × ℚ))
  centroid : ℚ × ℚ
  bounds : Bounds
  holeBounds : List Bounds
deriving DecidableEq

/-- pointInHoleOrBufferedBounds from MapView. -/
def pointInHoleOrBufferedBounds (x y : ℚ) (holes : List (List (ℚ × ℚ)))
    (holeBounds : List Bounds) (holePadding : ℚ) : Bool :=
  if holes.any (fun hole => pointInPolygon x y hole) then true
  else holeBounds.any (fun b => pointInBounds x y b holePadding)

/-- The acceptance test of projectPointToWalkable, shared between its
initial check and its tryCandidate closure: inside the zone polygon,
clear of holes and padded hole bounds, and (when edge padding is
positive) inside the edge-shrunk zone bounds. -/
def projectAccept (x y : ℚ) (zone : ZoneSurface) (hp ep : ℚ) : Bool :=
  pointInPolygon x y zone.polygon &&
    !(pointInHoleOrBufferedBounds x y zone.holes zone.holeBounds hp) &&
    (decide (ep ≤ 0) || pointInBounds x y zone.bounds (-ep))

/-- The 24 × 24 grid samples over the zone's bounding box, in visit
order (rows outer, columns inner, cell centers). -/
def gridPoints (zone : ZoneSurface) : List (ℚ × ℚ) :=
  (List.range ZONE_SAMPLE_STEPS).flatMap (fun yi =>
    (List.range ZONE_SAMPLE_STEPS).map (fun xi =>
      (zone.bounds.minX + (((xi : ℚ) + 1/2) / (ZONE_SAMPLE_STEPS : ℚ)) *
          (zone.bounds.maxX - zone.bounds.minX),
       zone.bounds.minY + (((yi : ℚ) + 1/2) / (ZONE_SAMPLE_STEPS : ℚ)) *
          (zone.bounds.maxY - zone.bounds.minY))))

/-- The tryCandidate closure: clamp, test acceptance, keep the strictly
closest accepted candidate.  The best-distance component is `none`
while `bestDist2` is still `Infinity`. -/
def projTry (x y : ℚ) (zone : ZoneSurface) (hp ep : ℚ)
    (st : ℚ × ℚ × Option ℚ) (c : ℚ × ℚ) : ℚ × ℚ × Option ℚ :=
  let nx := clamp01 c.1
  let ny := clamp01 c.2
  if !pointInPolygon nx ny zone.polygon then st
  else if pointInHoleOrBufferedBounds nx ny zone.holes zone.holeBounds hp then st
  else if decide (ep > 0) && !pointInBounds nx ny zone.bounds (-ep) then st
  else
    let dist2 := (nx - x) * (nx - x) + (ny - y) * (ny - y)
    match st.2.2 with
    | none => (nx, ny, some dist2)
    | some bd => if dist2 < bd then (nx, ny, some dist2) else st

/-- The candidate scan of projectPointToWalkable: the centroid first,
then the grid, starting from the centroid-initialized best. -/
def projectScan (x y : ℚ) (zone : ZoneSurface) (hp ep : ℚ) :
    ℚ × ℚ × Option ℚ :=
  (zone.centroid :: gridPoints zone).foldl (projTry x y zone hp ep)
    (zone.centroid.1, zone.centroid.2, none)

/-- projectPointToWalkable at zero edge padding: the recursive call of
the source cannot recurse again (its guard needs positive padding), so
it is this non-recursive body. -/
def projectPointToWalkable0 (x0 y0 : ℚ) (zone : ZoneSurface) (hp : ℚ) :
    ℚ × ℚ :=
  let x := clamp01 x0
  let y := clamp01 y0
  if projectAccept x y zone hp 0 then (x, y)
  else
    let st := projectScan x y zone hp 0
    (st.1, st.2.1)

/-- projectPointToWalkable from MapView, with the single retry (edge
padding disabled) unrolled into `projectPointToWalkable0`. -/
def projectPointToWalkable (x0 y0 : ℚ) (zone : ZoneSurface) (hp ep : ℚ) :
    ℚ × ℚ :=
  let x := clamp01 x0
  let y := clamp01 y0
  if projectAccept x y zone hp ep then (x, y)
  else
    let st := projectScan x y zone hp ep
    match st.2.2 with
    | some _ => (st.1, st.2.1)
    | none =>
        if 0 < ep then projectPointToWalkable0 x y zone hp
        else (st.1, st.2.1)

/-- The walkable clamped candidates of a candidate list. -/
def projWalkCands (zone : ZoneSurface) (hp ep : ℚ) (l : List (ℚ × ℚ)) :
    List (ℚ × ℚ) :=
  (l.map (fun c => (clamp01 c.1, clamp01 c.2))).filter
    (fun c => projectAccept c.1 c.2 zone hp ep)

/-- What the scan state says about the walkable clamped candidates
processed so far: no best tracked ↔ no walkable candidate (the
positional components still hold the centroid initializer), otherwise
the tracked best is a walkable candidate at minimum squared distance. -/
def projDesc (x y : ℚ) (zone : ZoneSurface) (wcands : List (ℚ × ℚ))
    (st : ℚ × ℚ × Option ℚ) : Prop :=
  (st.2.2 = none → wcands = [] ∧
    st.1 = zone.centroid.1 ∧ st.2.1 = zone.centroid.2) ∧
  (∀ d, st.2.2 = some d → (st.1, st.2.1) ∈ wcands ∧
    d = dist2To x y (st.1, st.2.1) ∧ ∀ q ∈ wcands, d ≤ dist2To x y q)

theorem projTry_eq (x y : ℚ) (zone : ZoneSurface) (hp ep : ℚ)
    (st : ℚ × ℚ × Option ℚ) (c : ℚ × ℚ) :
    projTry x y zone hp ep st c =
      if projectAccept (clamp01 c.1) (clamp01 c.2) zone hp ep then
        match st.2.2 with
        | none => (clamp01 c.1, clamp01 c.2,
            some (dist2To x y (clamp01 c.1, clamp01 c.2)))
        | some bd =>
            if dist2To x y (clamp01 c.1, clamp01 c.2) < bd then
              (clamp01 c.1, clamp01 c.2,
                some (dist2To x y (clamp01 c.1, clamp01 c.2)))
            else st
      else st := by
  unfold projTry projectAccept dist2To
  by_cases hep : ep ≤ 0
  · have h1 : ¬ (0 < ep) := not_lt.mpr hep
    cases hA : pointInPolygon (clamp01 c.1) (clamp01 c.2) zone.polygon <;>
      cases hB : pointInHoleOrBufferedBounds (clamp01 c.1) (clamp01 c.2)
        zone.holes zone.holeBounds hp <;>
      simp [hA, hB, hep, h1]
  · have h1 : 0 < ep := not_le.mp hep
    cases hA : pointInPolygon (clamp01 c.1) (clamp01 c.2) zone.polygon <;>
      cases hB : pointInHoleOrBufferedBounds (clamp01 c.1) (clamp01 c.2)
        zone.holes zone.holeBounds hp <;>
      cases hD : pointInBounds (clamp01 c.1) (clamp01 c.2) zone.bounds (-ep) <;>
      simp [hA, hB, hep, h1, hD]

theorem projWalkCands_cons_neg {zone : ZoneSurface} {hp ep : ℚ} {c : ℚ × ℚ}
    (h : projectAccept (clamp01 c.1) (clamp01 c.2) zone hp ep = false)
    (l : List (ℚ × ℚ)) :
    projWalkCands zone hp ep (c :: l) = projWalkCands zone hp ep l := by
  simp [projWalkCands, List.filter_cons, h]

theorem projWalkCands_cons_pos {zone : ZoneSurface} {hp ep : ℚ} {c : ℚ × ℚ}
    (h : projectAccept (clamp01 c.1) (clamp01 c.2) zone hp ep = true)
    (l : List (ℚ × ℚ)) :
    projWalkCands zone hp ep (c :: l) =
      (clamp01 c.1, clamp01 c.2) :: projWalkCands zone hp ep l := by
  simp [projWalkCands, List.filter_cons, h]

theorem foldl_projTry_desc {x y : ℚ} {zone : ZoneSurface} {hp ep : ℚ}
    (l : List (ℚ × ℚ)) :
    ∀ (wcands : List (ℚ × ℚ)) (st : ℚ × ℚ × Option ℚ),
      projDesc x y zone wcands st →
      projDesc x y zone (wcands ++ projWalkCands zone hp ep l)
        (l.foldl (projTry x y zone hp ep) st) := by
  induction l with
  | nil =>
      intro wcands st h
      simpa [projWalkCands] using h
  | cons c rest ih =>
      intro wcands st h
      rw [List.foldl_cons, projTry_eq]
      cases hw : projectAccept (clamp01 c.1) (clamp01 c.2) zone hp ep with
      | false =>
          rw [if_neg (by simp), projWalkCands_cons_neg hw]
          exact ih wcands st h
      | true =>
          rw [if_pos rfl, projWalkCands_cons_pos hw,
            show wcands ++ (clamp01 c.1, clamp01 c.2) ::
                projWalkCands zone hp ep rest =
              (wcands ++ [(clamp01 c.1, clamp01 c.2)]) ++
                projWalkCands zone hp ep rest by simp]
          refine ih (wcands ++ [(clamp01 c.1, clamp01 c.2)]) _ ?_
          obtain ⟨hnone, hsome⟩ := h
          obtain ⟨bx, bcy, bd⟩ := st
          cases bd with
          | none =>
              obtain ⟨hc, hbx, hbcy⟩ := hnone rfl
              subst hc
              constructor
              · intro habs
                exact absurd habs (by simp)
              · intro d hd
                have hd2 : some (dist2To x y (clamp01 c.1, clamp01 c.2)) =
                    some d := hd
                cases hd2
                refine ⟨by simp, rfl, ?_⟩
                intro q hq
                simp at hq
                simp [hq]
          | some d0 =>
              obtain ⟨hmem, hdeq, hmin⟩ := hsome d0 rfl
              simp only at hmem hdeq hmin
              show projDesc x y zone (wcands ++ [(clamp01 c.1, clamp01 c.2)])
                (if dist2To x y (clamp01 c.1, clamp01 c.2) < d0 then
                  (clamp01 c.1, clamp01 c.2,
                    some (dist2To x y (clamp01 c.1, clamp01 c.2)))
                else (bx, bcy, some d0))
              by_cases hlt : dist2To x y (clamp01 c.1, clamp01 c.2) < d0
              · rw [if_pos hlt]
                constructor
                · intro habs
                  exact absurd habs (by simp)
                · intro d hd
                  have hd2 : some (dist2To x y (clamp01 c.1, clamp01 c.2)) =
                      some d := hd
                  cases hd2
                  refine ⟨by simp, rfl, ?_⟩
                  intro q hq
                  rcases List.mem_append.mp hq with hq | hq
                  · exact le_of_lt (lt_of_lt_of_le hlt (hmin q hq))
                  · simp at hq
                    simp [hq]
              · rw [if_neg hlt]
                constructor
                · intro habs
                  exact absurd habs (by simp)
                · intro d hd
                  have hd2 : some d0 = some d := hd
                  cases hd2
                  refine ⟨List.mem_append_left _ hmem, hdeq, ?_⟩
                  intro q hq
                  rcases List.mem_append.mp hq with hq | hq
                  · exact hmin q hq
                  · simp at hq
                    subst hq
                    exact le_of_not_lt hlt

theorem projectScan_desc (x y : ℚ) (zone : ZoneSurface) (hp ep : ℚ) :
    projDesc x y zone
      (projWalkCands zone hp ep (zone.centroid :: gridPoints zone))
      (projectScan x y zone hp ep) := by
  have hinit : projDesc x y zone []
      (zone.centroid.1, zone.centroid.2, (none : Option ℚ)) := by
    constructor
    · intro _
      exact ⟨rfl, rfl, rfl⟩
    · intro d hd
      cases hd
  have := @foldl_projTry_desc x y zone hp ep
    (zone.centroid :: gridPoints zone) []
    (zone.centroid.1, zone.centroid.2, none) hinit
  rw [List.nil_append] at this
  exact this

theorem projectScan_none_iff (x y : ℚ) (zone : ZoneSurface) (hp ep : ℚ) :
    (projectScan x y zone hp ep).2.2 = none ↔
      projWalkCands zone hp ep (zone.centroid :: gridPoints zone) = [] := by
  have hdesc := projectScan_desc x y zone hp ep
  constructor
  · intro h
    exact (hdesc.1 h).1
  · intro h
    cases hst : (projectScan x y zone hp ep).2.2 with
    | none => rfl
    | some d =>
        have := (hdesc.2 d hst).1
        rw [h] at this
        cases this

theorem clamp01_idem (v : ℚ) : clamp01 (clamp01 v) = clamp01 v := by
  have h0 : 0 ≤ clamp01 v := le_max_left _ _
  have h1 : clamp01 v ≤ 1 := max_le (by norm_num) (min_le_left _ _)
  show max 0 (min 1 (clamp01 v)) = clamp01 v
  rw [min_eq_right h1, max_eq_right h0]

set_option maxRecDepth 8000 in
/-- C8 (amended): projectPointToWalkable accepts the clamped input when
it is already walkable; otherwise it scans the zone centroid first and
then the 24×24 grid over the zone's bounding box, returning the closest
walkable sample to the input; when that scan finds nothing it is empty
exactly when no candidate is walkable, and with a positive edge padding
the function retries once with edge padding disabled; if the retry also
finds nothing, the function returns the zone centroid as last resort —
not the clamped original point. -/
theorem C8_amended_projectPointToWalkable_spec (x0 y0 : ℚ)
    (zone : ZoneSurface) (hp ep : ℚ) :
    (projectAccept (clamp01 x0) (clamp01 y0) zone hp ep = true →
      projectPointToWalkable x0 y0 zone hp ep = (clamp01 x0, clamp01 y0)) ∧
    (projectAccept (clamp01 x0) (clamp01 y0) zone hp ep = false →
      (∀ d, (projectScan (clamp01 x0) (clamp01 y0) zone hp ep).2.2 = some d →
        projectPointToWalkable x0 y0 zone hp ep =
          ((projectScan (clamp01 x0) (clamp01 y0) zone hp ep).1,
           (projectScan (clamp01 x0) (clamp01 y0) zone hp ep).2.1) ∧
        ((projectScan (clamp01 x0) (clamp01 y0) zone hp ep).1,
         (projectScan (clamp01 x0) (clamp01 y0) zone hp ep).2.1) ∈
          projWalkCands zone hp ep (zone.centroid :: gridPoints zone) ∧
        ∀ q ∈ projWalkCands zone hp ep (zone.centroid :: gridPoints zone),
          dist2To (clamp01 x0) (clamp01 y0)
              ((projectScan (clamp01 x0) (clamp01 y0) zone hp ep).1,
               (projectScan (clamp01 x0) (clamp01 y0) zone hp ep).2.1) ≤
            dist2To (clamp01 x0) (clamp01 y0) q) ∧
      ((projectScan (clamp01 x0) (clamp01 y0) zone hp ep).2.2 = none →
        0 < ep →
        projectPointToWalkable x0 y0 zone hp ep =
          projectPointToWalkable0 (clamp01 x0) (clamp01 y0) zone hp) ∧
      ((projectScan (clamp01 x0) (clamp01 y0) zone hp ep).2.2 = none →
        ep ≤ 0 →
        projectPointToWalkable x0 y0 zone hp ep = zone.centroid)) ∧
    ((projectScan (clamp01 x0) (clamp01 y0) zone hp ep).2.2 = none ↔
      projWalkCands zone hp ep (zone.centroid :: gridPoints zone) = []) ∧
    (projectAccept (clamp01 x0) (clamp01 y0) zone hp 0 = false →
      projWalkCands zone hp 0 (zone.centroid :: gridPoints zone) = [] →
      projectPointToWalkable0 (clamp01 x0) (clamp01 y0) zone hp =
        zone.centroid) := by
  have hdesc := projectScan_desc (clamp01 x0) (clamp01 y0) zone hp ep
  refine ⟨?_, ?_, projectScan_none_iff _ _ _ _ _, ?_⟩
  · intro hacc
    simp only [projectPointToWalkable]
    rw [if_pos hacc]
  · intro hacc
    refine ⟨?_, ?_, ?_⟩
    · intro d hd
      have hsome := hdesc.2 d hd
      refine ⟨?_, hsome.1, fun q hq => hsome.2.1 ▸ hsome.2.2 q hq⟩
      simp only [projectPointToWalkable]
      rw [if_neg (by simp [hacc])]
      rw [hd]
    · intro hnone hep
      simp only [projectPointToWalkable]
      rw [if_neg (by simp [hacc])]
      rw [hnone, if_pos hep]
    · intro hnone hep
      simp only [projectPointToWalkable]
      rw [if_neg (by simp [hacc])]
      rw [hnone, if_neg (not_lt.mpr hep)]
      have h0 := hdesc.1 hnone
      rw [h0.2.1, h0.2.2]
  · intro hacc0 hempty
    have hnone0 : (projectScan (clamp01 x0) (clamp01 y0) zone hp 0).2.2 = none :=
      (projectScan_none_iff _ _ _ _ _).mpr hempty
    have h0 := (projectScan_desc (clamp01 x0) (clamp01 y0) zone hp 0).1 hnone0
    simp only [projectPointToWalkable0, clamp01_idem]
    rw [if_neg (by simp [hacc0])]
    rw [h0.2.1, h0.2.2]

/-- A zone whose polygon is degenerate (three identical vertices): every
even-odd point-in-polygon test fails, so no candidate of the projection
scan is ever walkable and the last resort of projectPointToWalkable is
exercised. -/
def zoneC8 : ZoneSurface :=
  { id := "z8", name := "Z8"
    polygon := [(1/5, 1/5), (1/5, 1/5), (1/5, 1/5)]
    holes := []
    centroid := (3/10, 3/10)
    bounds := { minX := 1/5, maxX := 1/5, minY := 1/5, maxY := 1/5 }
    holeBounds := [] }

theorem pointInPolygon_zoneC8 (x y : ℚ) :
    pointInPolygon x y zoneC8.polygon = false := by
  simp [pointInPolygon, zoneC8]

theorem projectAccept_zoneC8 (x y hp ep : ℚ) :
    projectAccept x y zoneC8 hp ep = false := by
  simp [projectAccept, pointInPolygon_zoneC8]

theorem projWalkCands_zoneC8 (hp ep : ℚ) (l : List (ℚ × ℚ)) :
    projWalkCands zoneC8 hp ep l = [] := by
  simp [projWalkCands, projectAccept_zoneC8]

theorem clamp01_nine_tenths : clamp01 ((9:ℚ)/10) = 9/10 := by
  show max 0 (min 1 ((9:ℚ)/10)) = 9/10
  rw [min_eq_right (by norm_num), max_eq_right (by norm_num)]

set_option maxRecDepth 8000 in
/-- C8 counterexample: with the degenerate zone no sample is walkable,
the scan at full padding and the retry at zero edge padding both fail,
and the function returns the zone centroid (0.3, 0.3) — not the clamped
input point (0.9, 0.9), which clamping leaves unchanged. -/
theorem C8_counterexample :
    projectPointToWalkable (9/10) (9/10) zoneC8 ROBOT_HOLE_PADDING_NORM
        ROBOT_ZONE_EDGE_PADDING_NORM = zoneC8.centroid ∧
      zoneC8.centroid = ((3:ℚ)/10, (3:ℚ)/10) ∧
      clamp01 ((9:ℚ)/10) = 9/10 ∧
      (((3:ℚ)/10, (3:ℚ)/10) : ℚ × ℚ) ≠ ((9:ℚ)/10, (9:ℚ)/10) := by
  refine ⟨?_, by simp [zoneC8], clamp01_nine_tenths, by norm_num⟩
  have hnone : (projectScan (clamp01 ((9:ℚ)/10)) (clamp01 ((9:ℚ)/10)) zoneC8
      ROBOT_HOLE_PADDING_NORM ROBOT_ZONE_EDGE_PADDING_NORM).2.2 = none :=
    (projectScan_none_iff _ _ _ _ _).mpr (projWalkCands_zoneC8 _ _ _)
  have hnone0 : (projectScan (clamp01 ((9:ℚ)/10)) (clamp01 ((9:ℚ)/10)) zoneC8
      ROBOT_HOLE_PADDING_NORM 0).2.2 = none :=
    (projectScan_none_iff _ _ _ _ _).mpr (projWalkCands_zoneC8 _ _ _)
  have h00 := (projectScan_desc (clamp01 ((9:ℚ)/10)) (clamp01 ((9:ℚ)/10))
    zoneC8 ROBOT_HOLE_PADDING_NORM 0).1 hnone0
  simp only [projectPointToWalkable]
  rw [if_neg (by simp [projectAccept_zoneC8])]
  rw [hnone, if_pos (by norm_num [ROBOT_ZONE_EDGE_PADDING_NORM])]
  simp only [projectPointToWalkable0, clamp01_idem]
  rw [if_neg (by simp [projectAccept_zoneC8])]
  rw [h00.2.1, h00.2.2]

/-! ### MapView robot tick (C9) -/

/-- ROBOT_STUCK_TICKS = 18. -/
def ROBOT_STUCK_TICKS : ℕ := 18

/-- EVENT_REACTION_DISTANCE_NORM = 0.22. -/
def EVENT_REACTION_DISTANCE_NORM : ℚ := 22/100

/-- RESPONSE_SPEED_MIN = 0.03. -/
def RESPONSE_SPEED_MIN : ℚ := 3/100

/-- ROBOT_CLEARANCE = 0.007. -/
def ROBOT_CLEARANCE : ℚ := 7/1000

/-- STEER_ANGLES_RAD, in probe order. -/
def STEER_ANGLES_RAD : List ℚ :=
  [0, 32/100, -(32/100), 64/100, -(64/100), 96/100, -(96/100),
   126/100, -(126/100)]

/-- CLEARANCE_PROBES: the centre, the four axis offsets and the four
0.72-scaled diagonal offsets. -/
def CLEARANCE_PROBES : List (ℚ × ℚ) :=
  [(0, 0),
   (ROBOT_CLEARANCE, 0), (-ROBOT_CLEARANCE, 0),
   (0, ROBOT_CLEARANCE), (0, -ROBOT_CLEARANCE),
   (ROBOT_CLEARANCE * (72/100), ROBOT_CLEARANCE * (72/100)),
   (ROBOT_CLEARANCE * (72/100), -(ROBOT_CLEARANCE * (72/100))),
   (-(ROBOT_CLEARANCE * (72/100)), ROBOT_CLEARANCE * (72/100)),
   (-(ROBOT_CLEARANCE * (72/100)), -(ROBOT_CLEARANCE * (72/100)))]

/-- The robot mode union "patrol" | "responding". -/
inductive RMode where
  | patrol
  | responding
deriving DecidableEq

/-- RobotState from MapView.  `stuckTicks` is only ever 0-initialised,
incremented by one or reset, so ℕ is exact. -/
structure MRobot where
  id : String
  label : String
  zoneId : String
  x : ℚ
  y : ℚ
  targetX : ℚ
  targetY : ℚ
  headingRad : ℚ
  speed : ℚ
  baseSpeed : ℚ
  mode : RMode
  assignedEventId : Option String
  stuckTicks : ℕ
deriving DecidableEq

/-- The projected reactive-event record built at the top of the tick
(Pick of EventItem plus the projected coordinates). -/
structure REvent where
  id : String
  zone_id : String
  severity : ℚ
  x : ℚ
  y : ℚ
deriving DecidableEq

/-- Modelled from the spec: the ambient functions the tick closes over
that live outside src/ (Math.cos / Math.sin / Math.atan2 / Math.hypot,
`isLive` and `samplePointInZoneNorm` from the geometry library, and the
tick's Math.random draws, one field per draw site).  `zones` stands for
both `zm.zones` and the derived `zoneById` surface list, which MapView
builds 1:1 from it and keys by the same zone ids. -/
structure MEnv where
  cosQ : ℚ → ℚ
  sinQ : ℚ → ℚ
  atan2Q : ℚ → ℚ → ℚ
  hypotQ : ℚ → ℚ → ℚ
  isLiveAt : ℚ → Bool
  sampleInZone : ZoneSurface → ℚ × ℚ
  pickZone : ZoneSurface
  randZoneSwitch : Bool
  randDetourPlus : Bool
  zones : List ZoneSurface

/-- isBlockedPoint from MapView: outside the clearance margin of the
unit square, or some clearance probe lands in a hole polygon or within
the robot hole padding of a hole bounding box. -/
def isBlockedPoint (x y : ℚ) (holes : List (List (ℚ × ℚ)))
    (holeBounds : List Bounds) : Bool :=
  if x < ROBOT_CLEARANCE ∨ 1 - ROBOT_CLEARANCE < x ∨
      y < ROBOT_CLEARANCE ∨ 1 - ROBOT_CLEARANCE < y then true
  else
    CLEARANCE_PROBES.any (fun p =>
      let px := clamp01 (x + p.1)
      let py := clamp01 (y + p.2)
      if holes.any (fun hole => pointInPolygon px py hole) then true
      else holeBounds.any (fun b =>
        pointInBounds px py b ROBOT_HOLE_PADDING_NORM))

/-- resolveSteerStep from MapView: first unblocked candidate along the
steering-angle fan, as (x, y, heading). -/
def resolveSteerStep (env : MEnv) (robot : MRobot) (step : ℚ)
    (holes : List (List (ℚ × ℚ))) (holeBounds : List Bounds) :
    Option (ℚ × ℚ × ℚ) :=
  let baseHeading := env.atan2Q (robot.targetY - robot.y)
    (robot.targetX - robot.x)
  STEER_ANGLES_RAD.findSome? (fun offset =>
    let heading := baseHeading + offset
    let x := robot.x + env.cosQ heading * step
    let y := robot.y + env.sinQ heading * step
    if isBlockedPoint x y holes holeBounds then none else some (x, y, heading))

/-- findClosestReactiveEvent from MapView: among events within the
reaction distance, the one with minimal severity-biased score
(`none` plays Number.POSITIVE_INFINITY for the running best score). -/
def findClosestReactiveEvent (env : MEnv) (robot : MRobot)
    (events : List REvent) : Option REvent :=
  (events.foldl (fun acc event =>
    let distance := env.hypotQ (event.x - robot.x) (event.y - robot.y)
    if EVENT_REACTION_DISTANCE_NORM < distance then acc
    else
      let score := distance - event.severity * (3/100)
      match acc with
      | none => some (event, score)
      | some (_, bestScore) =>
          if score < bestScore then some (event, score) else acc)
    none).map Prod.fst

/-- zoneById.get. -/
def zoneByIdM (env : MEnv) (zoneId : String) : Option ZoneSurface :=
  env.zones.find? (fun z => z.id == zoneId)

/-- projectToWalkableTarget from MapView: clamp when the zone is
unknown, otherwise the robot-padding grid projection. -/
def projectToWalkableTargetM (env : MEnv) (x y : ℚ) (zoneId : String) :
    ℚ × ℚ :=
  match zoneByIdM env zoneId with
  | none => (clamp01 x, clamp01 y)
  | some zone => projectPointToWalkable x y zone ROBOT_HOLE_PADDING_NORM
      ROBOT_ZONE_EDGE_PADDING_NORM

/-- The reactive-event list built at the top of every tick: live events
of severity at least 2, with coordinates projected into their zone. -/
def buildReactiveEvents (env : MEnv) (events : List EventItem) :
    List REvent :=
  (events.filter (fun e =>
      decide ((2:ℚ) ≤ e.severity) && env.isLiveAt e.detected_at)).map
    (fun e =>
      let p := projectToWalkableTargetM env e.x e.y e.zone_id
      { id := e.id, zone_id := e.zone_id, severity := e.severity,
        x := p.1, y := p.2 })

/-- One robot's update inside the tick interval of MapView
(`setRobots(prev => prev.map(robot => ...))`, stepMs = 80). -/
def tickRobot (env : MEnv) (reactiveEvents : List REvent)
    (holes : List (List (ℚ × ℚ))) (holeBounds : List Bounds)
    (robot : MRobot) : MRobot :=
  let stepMs : ℚ := 80
  let currentZone :=
    (env.zones.find? (fun z => z.id == robot.zoneId)).getD env.pickZone
  let trackedEvent := robot.assignedEventId.bind
    (fun aid => reactiveEvents.find? (fun e => e.id == aid))
  let nearestEvent := findClosestReactiveEvent env robot reactiveEvents
  let responseEvent := trackedEvent.orElse (fun _ => nearestEvent)
  let nextRobot :=
    match responseEvent with
    | some ev =>
        let projectedTarget := projectToWalkableTargetM env ev.x ev.y ev.zone_id
        { robot with
          zoneId := ev.zone_id
          targetX := projectedTarget.1
          targetY := projectedTarget.2
          speed := max (robot.baseSpeed * (116/100)) RESPONSE_SPEED_MIN
          mode := RMode.responding
          assignedEventId := some ev.id }
    | none =>
        if robot.mode = RMode.responding then
          let patrolZone :=
            (env.zones.find? (fun z => z.id == robot.zoneId)).getD currentZone
          let patrolRaw := env.sampleInZone patrolZone
          let patrolTarget :=
            projectToWalkableTargetM env patrolRaw.1 patrolRaw.2 patrolZone.id
          { robot with
            targetX := patrolTarget.1
            targetY := patrolTarget.2
            speed := robot.baseSpeed
            mode := RMode.patrol
            assignedEventId := none
            stuckTicks := 0 }
        else robot
  let dx := nextRobot.targetX - nextRobot.x
  let dy := nextRobot.targetY - nextRobot.y
  let distance := env.hypotQ dx dy
  let step := nextRobot.speed * (stepMs / 1000)
  if distance ≤ max step (3/1000) then
    if nextRobot.mode = RMode.responding then
      let patrolZone :=
        (env.zones.find? (fun z => z.id == nextRobot.zoneId)).getD currentZone
      let patrolRaw := env.sampleInZone patrolZone
      let patrolTarget :=
        projectToWalkableTargetM env patrolRaw.1 patrolRaw.2 patrolZone.id
      { nextRobot with
        x := nextRobot.targetX
        y := nextRobot.targetY
        zoneId := patrolZone.id
        targetX := patrolTarget.1
        targetY := patrolTarget.2
        speed := nextRobot.baseSpeed
        mode := RMode.patrol
        assignedEventId := none
        headingRad := env.atan2Q (patrolTarget.2 - nextRobot.targetY)
          (patrolTarget.1 - nextRobot.targetX)
        stuckTicks := 0 }
    else
      let nextZone := if env.randZoneSwitch then env.pickZone else currentZone
      let nextTargetRaw := env.sampleInZone nextZone
      let nextTarget :=
        projectToWalkableTargetM env nextTargetRaw.1 nextTargetRaw.2 nextZone.id
      { nextRobot with
        zoneId := nextZone.id
        targetX := nextTarget.1
        targetY := nextTarget.2
        headingRad := env.atan2Q (nextTarget.2 - nextRobot.y)
          (nextTarget.1 - nextRobot.x)
        stuckTicks := 0 }
  else
    match resolveSteerStep env nextRobot step holes holeBounds with
    | none =>
        let detourHeading := nextRobot.headingRad +
          (if env.randDetourPlus then 92/100 else -(92/100))
        let detourTargetX := clamp01 (nextRobot.x + env.cosQ detourHeading * (8/100))
        let detourTargetY := clamp01 (nextRobot.y + env.sinQ detourHeading * (8/100))
        let projectedDetour :=
          projectToWalkableTargetM env detourTargetX detourTargetY nextRobot.zoneId
        if isBlockedPoint projectedDetour.1 projectedDetour.2 holes holeBounds then
          let fallbackZone :=
            (env.zones.find? (fun z => z.id == nextRobot.zoneId)).getD currentZone
          let fallbackRaw := env.sampleInZone fallbackZone
          let fallbackPoint :=
            projectToWalkableTargetM env fallbackRaw.1 fallbackRaw.2 fallbackZone.id
          { nextRobot with
            x := fallbackPoint.1
            y := fallbackPoint.2
            targetX := fallbackPoint.1
            targetY := fallbackPoint.2
            speed := nextRobot.baseSpeed
            mode := RMode.patrol
            assignedEventId := none
            headingRad := detourHeading
            stuckTicks := 0 }
        else
          { nextRobot with
            targetX := projectedDetour.1
            targetY := projectedDetour.2
            headingRad := detourHeading
            stuckTicks := nextRobot.stuckTicks + 1 }
    | some steered =>
        let movedDistance := env.hypotQ (steered.1 - robot.x) (steered.2.1 - robot.y)
        let stuckTicks :=
          if movedDistance < 6/10000 then robot.stuckTicks + 1 else 0
        if ROBOT_STUCK_TICKS ≤ stuckTicks then
          let rescueZone :=
            (env.zones.find? (fun z => z.id == nextRobot.zoneId)).getD currentZone
          let rescueRaw := env.sampleInZone rescueZone
          let rescue :=
            projectToWalkableTargetM env rescueRaw.1 rescueRaw.2 rescueZone.id
          { nextRobot with
            targetX := rescue.1
            targetY := rescue.2
            mode := RMode.patrol
            assignedEventId := none
            stuckTicks := 0 }
        else
          { nextRobot with
            x := steered.1
            y := steered.2.1
            headingRad := steered.2.2
            stuckTicks := stuckTicks }

theorem clamp01_of_mem {v : ℚ} (h0 : 0 ≤ v) (h1 : v ≤ 1) : clamp01 v = v := by
  show max 0 (min 1 v) = v
  rw [min_eq_right h1, max_eq_right h0]

/-- Modelled from the spec: a Math.cos stand-in, tabulated with the
true cosine (to three decimals) at each heading this development
evaluates. -/
def cosQC9 : ℚ → ℚ := fun h =>
  if h = 7/25 then 961/1000
  else if h = 3/5 then 33/40
  else if h = -(1/25) then 999/1000
  else if h = 23/25 then 303/500
  else if h = -(9/25) then 117/125
  else if h = 31/25 then 13/40
  else if h = -(17/25) then 389/500
  else if h = 77/50 then 31/1000
  else if h = -(49/50) then 557/1000
  else if h = 6/5 then 181/500
  else 0

/-- Modelled from the spec: a Math.sin stand-in, tabulated like
`cosQC9`. -/
def sinQC9 : ℚ → ℚ := fun h =>
  if h = 7/25 then 69/250
  else if h = 3/5 then 113/200
  else if h = -(1/25) then -(1/25)
  else if h = 23/25 then 199/250
  else if h = -(9/25) then -(44/125)
  else if h = 31/25 then 473/500
  else if h = -(17/25) then -(629/1000)
  else if h = 77/50 then 1999/2000
  else if h = -(49/50) then -(83/100)
  else if h = 6/5 then 233/250
  else 0

/-- The C9 zone: the whole unit square is one walkable zone with no
holes, so only the clearance margin of `isBlockedPoint` can block. -/
def zoneC9 : ZoneSurface :=
  { id := "z1", name := "Zone 1"
    polygon := [(0, 0), (1, 0), (1, 1), (0, 1)]
    holes := []
    centroid := (1/2, 1/2)
    bounds := { minX := 0, maxX := 1, minY := 0, maxY := 1 }
    holeBounds := [] }

/-- The C9 environment: trigonometry from the tables, a constant hypot
at the one distance the tick computes (hypot 0.696 0.2 ≈ 0.724), every
event live, in-zone sampling at the centroid, and the tick's random
draws fixed (no zone switch, detour turns counterclockwise). -/
def envC9 : MEnv :=
  { cosQ := cosQC9
    sinQ := sinQC9
    atan2Q := fun _ _ => 7/25
    hypotQ := fun _ _ => 181/250
    isLiveAt := fun _ => true
    sampleInZone := fun z => z.centroid
    pickZone := zoneC9
    randZoneSwitch := false
    randDetourPlus := true
    zones := [zoneC9] }

/-- The event the robot is assigned to: severity 2, live, at
(0.7, 0.7) in the unit-square zone. -/
def evItemC9 : EventItem :=
  { evC1 with id := "ev1", severity := 2, zone_id := "z1", x := 7/10, y := 7/10 }

/-- Its projected reactive-event record. -/
def revC9 : REvent :=
  { id := "ev1", zone_id := "z1", severity := 2, x := 7/10, y := 7/10 }

/-- The robot under test: responding to "ev1", hugging the left wall at
x = 0.004 (inside the clearance margin, so every steering candidate is
blocked), with the stuck counter already at the threshold. -/
def robotC9 : MRobot :=
  { id := "robot-1", label := "R1", zoneId := "z1"
    x := 1/250, y := 1/2
    targetX := 7/10, targetY := 7/10
    headingRad := 7/25
    speed := 377/12500, baseSpeed := 13/500
    mode := RMode.responding
    assignedEventId := some "ev1"
    stuckTicks := 18 }

theorem zoneByIdM_envC9 : zoneByIdM envC9 "z1" = some zoneC9 := by
  simp [zoneByIdM, envC9, zoneC9]

theorem envC9_isLive : envC9.isLiveAt = fun _ => true := rfl

theorem envC9_hypot : envC9.hypotQ = fun _ _ => 181/250 := rfl

theorem envC9_atan2 : envC9.atan2Q = fun _ _ => 7/25 := rfl

theorem envC9_cos : envC9.cosQ = cosQC9 := rfl

theorem envC9_sin : envC9.sinQ = sinQC9 := rfl

theorem envC9_randDetourPlus : envC9.randDetourPlus = true := rfl

theorem envC9_zones : envC9.zones = [zoneC9] := rfl

theorem envC9_sample : envC9.sampleInZone = fun z => z.centroid := rfl

theorem projAccept7 : projectAccept (7/10) (7/10) zoneC9
    ROBOT_HOLE_PADDING_NORM ROBOT_ZONE_EDGE_PADDING_NORM = true := by
  simp [projectAccept, zoneC9, pointInPolygon, pointInHoleOrBufferedBounds,
    pointInBounds, ROBOT_ZONE_EDGE_PADDING_NORM, ROBOT_HOLE_PADDING_NORM]
  norm_num

set_option maxRecDepth 8000 in
theorem projToWalkC9_ev :
    projectToWalkableTargetM envC9 (7/10) (7/10) "z1" = (7/10, 7/10) := by
  simp only [projectToWalkableTargetM, zoneByIdM_envC9]
  simp only [projectPointToWalkable]
  rw [clamp01_of_mem (by norm_num) (by norm_num)]
  rw [if_pos projAccept7]

theorem projAcceptDetour : projectAccept (103/3125) (3591/6250) zoneC9
    ROBOT_HOLE_PADDING_NORM ROBOT_ZONE_EDGE_PADDING_NORM = true := by
  simp [projectAccept, zoneC9, pointInPolygon, pointInHoleOrBufferedBounds,
    pointInBounds, ROBOT_ZONE_EDGE_PADDING_NORM, ROBOT_HOLE_PADDING_NORM]
  norm_num

set_option maxRecDepth 8000 in
theorem projToWalkC9_detour :
    projectToWalkableTargetM envC9 (103/3125) (3591/6250) "z1" =
      (103/3125, 3591/6250) := by
  simp only [projectToWalkableTargetM, zoneByIdM_envC9]
  simp only [projectPointToWalkable]
  rw [clamp01_of_mem (show (0:ℚ) ≤ 103/3125 by norm_num) (by norm_num),
    clamp01_of_mem (show (0:ℚ) ≤ 3591/6250 by norm_num) (by norm_num)]
  rw [if_pos projAcceptDetour]

theorem buildC9 : buildReactiveEvents envC9 [evItemC9] = [revC9] := by
  simp [buildReactiveEvents, evItemC9, evC1, revC9, envC9_isLive,
    projToWalkC9_ev]

set_option maxHeartbeats 2000000 in
set_option maxRecDepth 8000 in
theorem tickC9_eq :
    tickRobot envC9 [revC9] [] [] robotC9 =
      { robotC9 with
        targetX := 103/3125
        targetY := 3591/6250
        speed := 377/12500
        headingRad := 6/5
        stuckTicks := 19 } := by
  simp [tickRobot, robotC9, revC9, findClosestReactiveEvent,
    resolveSteerStep, isBlockedPoint, STEER_ANGLES_RAD, CLEARANCE_PROBES,
    ROBOT_CLEARANCE, RESPONSE_SPEED_MIN, EVENT_REACTION_DISTANCE_NORM,
    ROBOT_STUCK_TICKS, envC9_isLive, envC9_hypot, envC9_atan2, envC9_cos,
    envC9_sin, envC9_randDetourPlus, envC9_zones, envC9_sample, zoneC9,
    cosQC9, sinQC9, projToWalkC9_ev, projToWalkC9_detour, clamp01,
    max_def, min_def]
  norm_num [projToWalkC9_detour]

/-- C9: the rescue threshold is not honoured.  A robot in responding
mode whose whole steering fan is blocked takes the detour branch, which
increments the stuck counter with no threshold check; the check at
`ROBOT_STUCK_TICKS` sits only on the successful-steer path, where the
counter was just recomputed from the step displacement.  Concretely:
with the counter already at the threshold (18), the next tick leaves
the robot responding, still assigned to its event, with counter 19 —
not in patrol mode with counter 0 as the claim requires. -/
theorem C9_stuck_threshold_not_rescued :
    robotC9.stuckTicks = ROBOT_STUCK_TICKS ∧
    robotC9.mode = RMode.responding ∧
    tickRobot envC9 (buildReactiveEvents envC9 [evItemC9]) [] [] robotC9 =
      { robotC9 with
        targetX := 103/3125
        targetY := 3591/6250
        speed := 377/12500
        headingRad := 6/5
        stuckTicks := ROBOT_STUCK_TICKS + 1 } ∧
    (ROBOT_STUCK_TICKS + 1 ≠ 0 ∧ RMode.responding ≠ RMode.patrol) := by
  refine ⟨rfl, rfl, ?_, by decide, by decide⟩
  rw [buildC9]
  exact tickC9_eq

/-! ### Claim C5: re-normalizing the feed's own output -/

/-- The union string of an EventType, as the TypeScript event object
holds it. -/
def eventTypeStr : EventType → String
  | EventType.crowd => "crowd"
  | EventType.fall => "fall"
  | EventType.fight => "fight"
  | EventType.loitering => "loitering"
  | EventType.unknown => "unknown"

/-- The union string of an IncidentStatus. -/
def incidentStatusStr : IncidentStatus → String
  | IncidentStatus.new => "new"
  | IncidentStatus.ack => "ack"
  | IncidentStatus.resolved => "resolved"

/-- The union string of an EventSource. -/
def eventSourceStr : EventSource → String
  | EventSource.demo => "demo"
  | EventSource.camera => "camera"
  | EventSource.api => "api"
  | EventSource.unknown => "unknown"

/-- An optional string field of the event object.  The source holds
`undefined` for a missing value; `pickValue` (the only reader of these
keys) skips `undefined` and `null` alike, so `null` models it exactly. -/
def optStr : Option String → JVal
  | none => JVal.jnull
  | some s => JVal.str s

/-- An optional numeric field of the event object. -/
def optNum : Option ℚ → JVal
  | none => JVal.jnull
  | some q => JVal.num q

/-- The field list of the object literal adaptRawEvent returns, in its
key order. -/
def eventFields (e : EventItem) : JObj :=
  [("id", JVal.str e.id),
   ("store_id", JVal.str e.store_id),
   ("detected_at", JVal.num e.detected_at),
   ("ingested_at", JVal.num e.ingested_at),
   ("latency_ms", JVal.num e.latency_ms),
   ("type", JVal.str (eventTypeStr e.type)),
   ("severity", JVal.num e.severity),
   ("confidence", JVal.num e.confidence),
   ("zone_id", JVal.str e.zone_id),
   ("camera_id", optStr e.camera_id),
   ("track_id", optStr e.track_id),
   ("object_label", optStr e.object_label),
   ("raw_status", optStr e.raw_status),
   ("source", JVal.str (eventSourceStr e.source)),
   ("model_version", optStr e.model_version),
   ("incident_status", JVal.str (incidentStatusStr e.incident_status)),
   ("x", JVal.num e.x),
   ("y", JVal.num e.y),
   ("world_x_m", optNum e.world_x_m),
   ("world_z_m", optNum e.world_z_m),
   ("note", optStr e.note)]

/-- An EventItem as the JSON-like value the feed would re-normalize. -/
def eventToJVal (e : EventItem) : JVal := JVal.obj (eventFields e)

/-- A string the adapter could have produced as an id: trimming leaves
it unchanged and it is nonempty. -/
def trimOK (s : String) : Prop := jsTrim s = s ∧ s ≠ ""

theorem head_dropWhile_not {p : Char → Bool} :
    ∀ {l : List Char} {a : Char}, (l.dropWhile p).head? = some a → p a = false := by
  intro l
  induction l with
  | nil => intro a h; cases h
  | cons b t ih =>
      intro a h
      rw [List.dropWhile_cons] at h
      by_cases hb : p b
      · rw [if_pos hb] at h
        exact ih h
      · rw [if_neg hb] at h
        simp only [List.head?_cons, Option.some.injEq] at h
        rw [← h]
        exact Bool.eq_false_iff.mpr hb

theorem dropWhile_suffix_of (p : Char → Bool) (l : List Char) :
    l.dropWhile p <:+ l := by
  induction l with
  | nil => exact List.suffix_rfl
  | cons b t ih =>
      rw [List.dropWhile_cons]
      by_cases hb : p b
      · rw [if_pos hb]
        exact ih.trans (List.suffix_cons b t)
      · rw [if_neg hb]

theorem getLast_of_suffix {l m : List Char} (h : l <:+ m) (hne : l ≠ []) :
    l.getLast? = m.getLast? := by
  obtain ⟨t, rfl⟩ := h
  exact (List.getLast?_append_of_ne_nil t hne).symm

theorem jsTrimList_of_ends {l : List Char}
    (h1 : ∀ c ∈ l.head?, c.isWhitespace = false)
    (h2 : ∀ c ∈ l.getLast?, c.isWhitespace = false) :
    jsTrimList l = l := by
  unfold jsTrimList
  have hd : l.dropWhile Char.isWhitespace = l := by
    cases l with
    | nil => rfl
    | cons a t =>
        have ha : Char.isWhitespace a = false := h1 a (by simp)
        rw [List.dropWhile_cons, if_neg (by simp [ha])]
  rw [hd]
  have hrev : l.reverse.dropWhile Char.isWhitespace = l.reverse := by
    cases hr : l.reverse with
    | nil => rfl
    | cons a t =>
        have ha2 : l.getLast? = some a := by
          rw [← List.head?_reverse, hr]
          rfl
        have ha : Char.isWhitespace a = false := h2 a (by rw [ha2]; rfl)
        rw [List.dropWhile_cons, if_neg (by simp [ha])]
  rw [hrev, List.reverse_reverse]

theorem jsTrimList_head_not_ws (l : List Char) :
    ∀ c ∈ (jsTrimList l).head?, c.isWhitespace = false := by
  intro c hc
  unfold jsTrimList at hc
  rw [List.head?_reverse] at hc
  set q := (l.dropWhile Char.isWhitespace).reverse.dropWhile Char.isWhitespace
    with hq
  have hqne : q ≠ [] := by
    intro h0
    rw [h0] at hc
    cases hc
  have hsfx : q <:+ (l.dropWhile Char.isWhitespace).reverse :=
    dropWhile_suffix_of _ _
  rw [getLast_of_suffix hsfx hqne, List.getLast?_reverse] at hc
  exact head_dropWhile_not hc

theorem jsTrimList_last_not_ws (l : List Char) :
    ∀ c ∈ (jsTrimList l).getLast?, c.isWhitespace = false := by
  intro c hc
  unfold jsTrimList at hc
  rw [List.getLast?_reverse] at hc
  exact head_dropWhile_not hc

theorem jsTrimList_idem (l : List Char) :
    jsTrimList (jsTrimList l) = jsTrimList l :=
  jsTrimList_of_ends (jsTrimList_head_not_ws l) (jsTrimList_last_not_ws l)

theorem jsTrim_data (s : String) : (jsTrim s).data = jsTrimList s.data := rfl

theorem jsTrim_idem (s : String) : jsTrim (jsTrim s) = jsTrim s :=
  congrArg String.mk (jsTrimList_idem s.data)

theorem trimOK_jsTrim {s : String} (h : jsTrim s ≠ "") : trimOK (jsTrim s) :=
  ⟨jsTrim_idem s, h⟩

theorem string_ne_empty_of_data {s : String} (h : s.data ≠ []) : s ≠ "" := by
  intro h0
  rw [h0] at h
  exact h rfl

theorem trimOK_of_all_not_ws {s : String}
    (h : ∀ c ∈ s.data, c.isWhitespace = false) (hne : s.data ≠ []) :
    trimOK s := by
  refine ⟨?_, string_ne_empty_of_data hne⟩
  have h0 : jsTrimList s.data = s.data :=
    jsTrimList_of_ends (fun c hc => h c (List.mem_of_mem_head? hc))
      (fun c hc => h c (List.mem_of_mem_getLast? hc))
  show String.mk (jsTrimList s.data) = s
  rw [h0]

theorem trimOK_head_not_ws {s : String} (h : trimOK s) :
    ∀ c ∈ s.data.head?, c.isWhitespace = false := by
  intro c hc
  have hdata : jsTrimList s.data = s.data := congrArg String.data h.1
  rw [← hdata] at hc
  exact jsTrimList_head_not_ws s.data c hc

theorem trimOK_last_not_ws {s : String} (h : trimOK s) :
    ∀ c ∈ s.data.getLast?, c.isWhitespace = false := by
  intro c hc
  have hdata : jsTrimList s.data = s.data := congrArg String.data h.1
  rw [← hdata] at hc
  exact jsTrimList_last_not_ws s.data c hc

theorem data_ne_nil_of_trimOK {s : String} (h : trimOK s) : s.data ≠ [] := by
  intro h0
  apply h.2
  cases s with
  | mk d => cases h0; rfl

theorem trimOK_append {a b : String} (ha : trimOK a) (hb : trimOK b) :
    trimOK (a ++ b) := by
  have hdata : (a ++ b).data = a.data ++ b.data := String.data_append a b
  constructor
  · show String.mk (jsTrimList (a ++ b).data) = a ++ b
    rw [hdata]
    rw [jsTrimList_of_ends ?_ ?_]
    · exact congrArg String.mk hdata.symm
    · intro c hc
      cases hda : a.data with
      | nil => exact absurd hda (data_ne_nil_of_trimOK ha)
      | cons u t =>
          rw [hda, List.cons_append, List.head?_cons] at hc
          cases hc
          exact trimOK_head_not_ws ha c (by rw [hda]; rfl)
    · intro c hc
      rw [List.getLast?_append_of_ne_nil _ (data_ne_nil_of_trimOK hb)] at hc
      exact trimOK_last_not_ws hb c hc
  · apply string_ne_empty_of_data
    rw [hdata]
    intro h0
    exact data_ne_nil_of_trimOK ha (List.append_eq_nil.mp h0).1

theorem digitChar_not_ws (n : ℕ) : (Nat.digitChar n).isWhitespace = false := by
  by_cases h : n < 16
  · interval_cases n <;> decide
  · have h0 : Nat.digitChar n = '*' := by
      unfold Nat.digitChar
      repeat rw [if_neg (by omega)]
    rw [h0]
    decide

theorem toDigitsCore_not_ws (b : ℕ) :
    ∀ (fuel n : ℕ) (ds : List Char), (∀ c ∈ ds, c.isWhitespace = false) →
      ∀ c ∈ Nat.toDigitsCore b fuel n ds, c.isWhitespace = false := by
  intro fuel
  induction fuel with
  | zero => intro n ds h c hc; exact h c hc
  | succ f ih =>
      intro n ds h c hc
      simp only [Nat.toDigitsCore] at hc
      split at hc
      · rcases List.mem_cons.mp hc with rfl | hm
        · exact digitChar_not_ws _
        · exact h c hm
      · refine ih _ _ ?_ c hc
        intro d hd
        rcases List.mem_cons.mp hd with rfl | hm
        · exact digitChar_not_ws _
        · exact h d hm

theorem toDigitsCore_ne_nil (b : ℕ) :
    ∀ (fuel n : ℕ) (ds : List Char), Nat.toDigitsCore b fuel n ds = [] →
      ds = [] ∧ fuel = 0 := by
  intro fuel
  induction fuel with
  | zero => intro n ds h; exact ⟨h, rfl⟩
  | succ f ih =>
      intro n ds h
      simp only [Nat.toDigitsCore] at h
      split at h
      · cases h
      · exact absurd (ih _ _ h).1 (by simp)

theorem natRepr_trimOK (n : ℕ) : trimOK (Nat.repr n) := by
  have hdata : (Nat.repr n).data = Nat.toDigits 10 n := rfl
  refine trimOK_of_all_not_ws ?_ ?_
  · rw [hdata]
    exact toDigitsCore_not_ws 10 (n + 1) n [] (by intro c hc; cases hc)
  · rw [hdata]
    intro h0
    exact absurd (toDigitsCore_ne_nil 10 (n + 1) n [] h0).2 (by simp)

theorem intToString_trimOK (n : ℤ) : trimOK (toString n) := by
  cases n with
  | ofNat m => exact natRepr_trimOK m
  | negSucc m =>
      show trimOK ("-" ++ toString (m + 1))
      exact trimOK_append ⟨by decide, by decide⟩ (natRepr_trimOK (m + 1))

theorem parseId_ok {v : Option JVal} {s : String} (h : parseId v = some s) :
    trimOK s := by
  unfold parseId at h
  split at h
  · next s0 =>
      split at h
      · next hne =>
          cases h
          exact trimOK_jsTrim hne
      · cases h
  · next q =>
      cases h
      exact intToString_trimOK (jsRound q)
  · cases h

/-- A millisecond timestamp the adapter could have produced: an integer
between the 2000 cutoff and the future-drift cap. -/
def tsOK (env : Env) (q : ℚ) : Prop :=
  ((jsRound q : ℤ) : ℚ) = q ∧ MIN_VALID_EPOCH_MS ≤ q ∧
    q ≤ env.nowMs + MAX_FUTURE_DRIFT_MS

theorem jsRound_intCast (n : ℤ) : jsRound (n : ℚ) = n := by
  unfold jsRound
  rw [add_comm, Int.floor_add_int]
  norm_num

theorem normalizeEpoch_ok {env : Env} {q d : ℚ}
    (h : normalizeEpoch env q = some d) : tsOK env d := by
  simp only [normalizeEpoch] at h
  split at h
  · cases h
  · split at h
    · cases h
    · next h1 h2 =>
        cases h
        refine ⟨?_, not_lt.mp h1, not_lt.mp h2⟩
        rw [jsRound_intCast]

theorem epochDispatch_ok {env : Env} {q d : ℚ}
    (h : epochDispatch env q = some d) : tsOK env d := by
  unfold epochDispatch at h
  split at h
  · exact normalizeEpoch_ok h
  · split at h
    · exact normalizeEpoch_ok h
    · exact normalizeEpoch_ok h

theorem parseEpochMs_ok {env : Env} {v : Option JVal} {d : ℚ}
    (h : parseEpochMs env v = some d) : tsOK env d := by
  simp only [parseEpochMs] at h
  split at h
  · exact epochDispatch_ok h
  · split at h
    · cases h
    · split at h
      · exact epochDispatch_ok h
      · split at h
        · exact normalizeEpoch_ok h
        · cases h
  · cases h

theorem epochDispatch_fixed {env : Env} {d : ℚ} (h : tsOK env d) :
    epochDispatch env d = some d := by
  have hnorm : normalizeEpoch env d = some d := by
    unfold normalizeEpoch
    rw [h.1]
    rw [if_neg (not_lt.mpr h.2.1), if_neg (not_lt.mpr h.2.2)]
  unfold epochDispatch
  by_cases h12 : d ≥ 1000000000000
  · rw [if_pos h12]
    exact hnorm
  · rw [if_neg h12, if_neg ?_]
    · exact hnorm
    · rintro ⟨_, hle⟩
      have hmin : (946684800000 : ℚ) ≤ d := h.2.1
      linarith

theorem adaptRawEvent_inv {env : Env} {v : JVal} {opts : AdaptOptions}
    {ev : EventItem} (h : adaptRawEvent env v opts = some ev) :
    trimOK ev.id ∧ tsOK env ev.detected_at ∧ tsOK env ev.ingested_at := by
  unfold adaptRawEvent at h
  cases hrec : asRecord v with
  | none => rw [hrec] at h; cases h
  | some record =>
      rw [hrec] at h
      simp only at h
      split at h
      · cases h
      · next id hid =>
          split at h
          · cases h
          · next detectedAt hdet =>
              split at h
              · cases h
              · next coordinates hc =>
                  cases h
                  refine ⟨?_, parseEpochMs_ok hdet, ?_⟩
                  · show trimOK id
                    split at hid
                    · next i hi =>
                        cases hid
                        exact parseId_ok hi
                    · split at hid
                      · next t ht =>
                          cases hid
                          refine trimOK_append (trimOK_append ?_ ⟨by decide, by decide⟩)
                            (parseId_ok ht)
                          cases hcam : parseId (pickValue record cameraIdPaths) with
                          | none => exact ⟨by decide, by decide⟩
                          | some c => exact parseId_ok hcam
                      · cases hid
                  · show tsOK env ((parseEpochMs env (pickValue record
                        [["ingested_at"], ["ingestedAt"], ["received_at"],
                         ["receivedAt"], ["updated_at"], ["updatedAt"]])).getD
                        detectedAt)
                    cases hing : parseEpochMs env (pickValue record
                        [["ingested_at"], ["ingestedAt"], ["received_at"],
                         ["receivedAt"], ["updated_at"], ["updatedAt"]]) with
                    | none => exact parseEpochMs_ok hdet
                    | some ing => exact parseEpochMs_ok hing

theorem pickC5_id (e : EventItem) :
    pickValue (eventFields e) explicitIdPaths = some (JVal.str e.id) := by
  simp [pickValue, explicitIdPaths, readPath, readPathVal, lookupLast,
    eventFields, List.findSome?]

theorem pickC5_det (e : EventItem) :
    pickValue (eventFields e) detectedAtPaths = some (JVal.num e.detected_at) := by
  simp [pickValue, detectedAtPaths, readPath, readPathVal, lookupLast,
    eventFields, List.findSome?]

theorem pickC5_ing (e : EventItem) :
    pickValue (eventFields e)
      [["ingested_at"], ["ingestedAt"], ["received_at"], ["receivedAt"],
       ["updated_at"], ["updatedAt"]] = some (JVal.num e.ingested_at) := by
  simp [pickValue, readPath, readPathVal, lookupLast, eventFields,
    List.findSome?]

theorem pickC5_x (e : EventItem) :
    pickValue (eventFields e) xPaths = some (JVal.num e.x) := by
  simp [pickValue, xPaths, readPath, readPathVal, lookupLast, eventFields,
    List.findSome?]

theorem pickC5_y (e : EventItem) :
    pickValue (eventFields e) yPaths = some (JVal.num e.y) := by
  simp [pickValue, yPaths, readPath, readPathVal, lookupLast, eventFields,
    List.findSome?]

/-- Re-adapting the JSON value of an event the adapter could have
produced succeeds and preserves the identity triple (id, detected_at,
ingested_at). -/
theorem adapt_roundtrip {env : Env} (opts : AdaptOptions) {e : EventItem}
    (hid : trimOK e.id) (hdet : tsOK env e.detected_at)
    (hing : tsOK env e.ingested_at)
    (hx : 0 ≤ e.x ∧ e.x ≤ 1) (hy : 0 ≤ e.y ∧ e.y ≤ 1) :
    ∃ f, adaptRawEvent env (eventToJVal e) opts = some f ∧
      f.id = e.id ∧ f.detected_at = e.detected_at ∧
      f.ingested_at = e.ingested_at := by
  have hpid : parseId (pickValue (eventFields e) explicitIdPaths) = some e.id := by
    rw [pickC5_id]
    simp only [parseId]
    rw [hid.1]
    rw [if_pos hid.2]
  have hpdet : parseEpochMs env (pickValue (eventFields e) detectedAtPaths) =
      some e.detected_at := by
    rw [pickC5_det]
    simp only [parseEpochMs]
    exact epochDispatch_fixed hdet
  have hping : parseEpochMs env (pickValue (eventFields e)
      [["ingested_at"], ["ingestedAt"], ["received_at"], ["receivedAt"],
       ["updated_at"], ["updatedAt"]]) = some e.ingested_at := by
    rw [pickC5_ing]
    simp only [parseEpochMs]
    exact epochDispatch_fixed hing
  have hcoord : extractCoordinates env (eventFields e)
      (parseId (pickValue (eventFields e) cameraIdPaths)) =
      some { x := e.x, y := e.y } := by
    unfold extractCoordinates
    rw [pickC5_x, pickC5_y]
    simp only [normalizeCoordinate, parseNumber]
    rw [if_pos hx, if_pos hy]
  simp only [adaptRawEvent,
    show asRecord (eventToJVal e) = some (eventFields e) from rfl,
    hpid, hpdet, hcoord, hping]
  exact ⟨_, rfl, rfl, rfl, rfl⟩

theorem filterMap_eq_map_of {α β : Type} {g : α → Option β} {f : α → β} :
    ∀ {l : List α}, (∀ a ∈ l, g a = some (f a)) → l.filterMap g = l.map f := by
  intro l
  induction l with
  | nil => intro _; rfl
  | cons a t ih =>
      intro hall
      rw [List.filterMap_cons, hall a (by simp), List.map_cons,
        ih (fun b hb => hall b (by simp [hb]))]

theorem jsMapGet_append_none {α : Type} {m1 m2 : List (String × α)} {k : String}
    (h1 : jsMapGet m1 k = none) (h2 : jsMapGet m2 k = none) :
    jsMapGet (m1 ++ m2) k = none := by
  unfold jsMapGet at h1 h2 ⊢
  rw [Option.map_eq_none'] at h1 h2
  rw [Option.map_eq_none', List.find?_append, h1, h2]
  rfl

theorem jsMapGet_singleton_none {α : Type} {k k2 : String} {v : α}
    (h : k2 ≠ k) : jsMapGet [(k2, v)] k = none := by
  unfold jsMapGet
  rw [Option.map_eq_none', List.find?_cons_of_neg _ (by simpa using h)]
  rfl

theorem dedup_noop_aux :
    ∀ (l : List EventItem) (m : List (String × EventItem)),
      (∀ e ∈ l, jsMapGet m e.id = none) → (l.map EventItem.id).Nodup →
      l.foldl dedupStep m = m ++ l.map (fun e => (e.id, e)) := by
  intro l
  induction l with
  | nil => intro m _ _; simp
  | cons e t ih =>
      intro m habs hnd
      rw [List.map_cons, List.nodup_cons] at hnd
      have hget : jsMapGet m e.id = none := habs e (by simp)
      have hstep : dedupStep m e = m ++ [(e.id, e)] := by
        unfold dedupStep
        rw [hget]
        unfold jsMapUpsert
        rw [if_neg ?_]
        intro hany
        obtain ⟨p, hp, hpk⟩ := List.any_eq_true.mp hany
        unfold jsMapGet at hget
        rw [Option.map_eq_none'] at hget
        exact absurd hpk (by simpa using List.find?_eq_none.mp hget p hp)
      rw [List.foldl_cons, hstep]
      rw [ih (m ++ [(e.id, e)]) ?_ hnd.2]
      · simp
      · intro f hf
        refine jsMapGet_append_none (habs f (by simp [hf])) ?_
        refine jsMapGet_singleton_none ?_
        intro hk
        exact hnd.1 (hk ▸ List.mem_map_of_mem EventItem.id hf)

theorem dedupNewer_noop {l : List EventItem}
    (h : (l.map EventItem.id).Nodup) :
    dedupNewer l = l.map (fun e => (e.id, e)) := by
  rw [dedupNewer_eq_foldl]
  have h0 := dedup_noop_aux l [] (fun e _ => rfl) h
  simpa using h0

theorem feedLE_congr {a a' b b' : EventItem}
    (ha1 : a'.id = a.id) (ha2 : a'.detected_at = a.detected_at)
    (ha3 : a'.ingested_at = a.ingested_at)
    (hb1 : b'.id = b.id) (hb2 : b'.detected_at = b.detected_at)
    (hb3 : b'.ingested_at = b.ingested_at) :
    feedLE a' b' = feedLE a b := by
  unfold feedLE
  rw [ha1, ha2, ha3, hb1, hb2, hb3]

/-- The facts about a feed output the idempotence argument needs:
soundness, id uniqueness, sortedness and the length budget. -/
theorem normalizeEventFeed_facts (env : Env) (raw : List JVal)
    (opts : NormalizeOptions) :
    (∀ e ∈ normalizeEventFeed env raw opts,
        e ∈ raw.filterMap (fun v => adaptRawEvent env v opts.toAdapt)) ∧
    ((normalizeEventFeed env raw opts).map EventItem.id).Nodup ∧
    (normalizeEventFeed env raw opts).Pairwise (fun a b => feedLE a b = true) ∧
    (normalizeEventFeed env raw opts).length ≤ sliceCount (safeMaxEvents opts) := by
  obtain ⟨hnd, hent, hcov, hmax⟩ :=
    dedupNewer_inv (raw.filterMap (fun v => adaptRawEvent env v opts.toAdapt))
  set normalized := raw.filterMap (fun v => adaptRawEvent env v opts.toAdapt)
    with hnormdef
  have hperm : List.Perm (((dedupNewer normalized).map Prod.snd).mergeSort
      feedLE) ((dedupNewer normalized).map Prod.snd) :=
    List.mergeSort_perm _ _
  have houtdef : normalizeEventFeed env raw opts =
      (((dedupNewer normalized).map Prod.snd).mergeSort feedLE).take
        (sliceCount (safeMaxEvents opts)) := rfl
  refine ⟨?_, ?_, ?_, ?_⟩
  · intro e he
    rw [houtdef] at he
    have hm := hperm.mem_iff.mp (List.mem_of_mem_take he)
    obtain ⟨p, hp, hpe⟩ := List.mem_map.mp hm
    exact hpe ▸ (hent p hp).2
  · have hids : (dedupNewer normalized).map (fun p => p.2.id) =
        (dedupNewer normalized).map Prod.fst := by
      apply List.map_congr_left
      intro p hp
      exact ((hent p hp).1).symm
    have hvalsnd : (((dedupNewer normalized).map Prod.snd).map
        EventItem.id).Nodup := by
      rw [List.map_map]
      rw [show (EventItem.id ∘ Prod.snd : String × EventItem → String) =
        (fun p => p.2.id) from rfl]
      rw [hids]
      exact hnd
    have hsortnd : ((((dedupNewer normalized).map Prod.snd).mergeSort
        feedLE).map EventItem.id).Nodup :=
      ((hperm.map EventItem.id).nodup_iff).mpr hvalsnd
    rw [houtdef, List.map_take]
    exact List.Nodup.sublist (List.take_sublist _ _) hsortnd
  · have hsorted := @List.sorted_mergeSort _ feedLE feedLE_trans
      feedLE_total ((dedupNewer normalized).map Prod.snd)
    rw [houtdef]
    exact List.Pairwise.sublist (List.take_sublist _ _) hsorted
  · rw [houtdef, List.length_take]
    exact min_le_left _ _

/-- C5 (amended): normalizeEventFeed is idempotent on its own output at
the level of event identity and ordering, not of every field.  Feeding
the output events back in yields a feed with the same list of
(id, detected_at, ingested_at) triples in the same order; fields that
the adapter reads from differently-named raw keys (such as raw_status,
sourced from status/state keys the event object does not carry) are not
preserved. -/
theorem C5_amended_normalizeEventFeed_id_idempotent (env : Env)
    (raw : List JVal) (opts : NormalizeOptions) :
    (normalizeEventFeed env
        ((normalizeEventFeed env raw opts).map eventToJVal) opts).map
      (fun e => (e.id, e.detected_at, e.ingested_at)) =
    (normalizeEventFeed env raw opts).map
      (fun e => (e.id, e.detected_at, e.ingested_at)) := by
  obtain ⟨hsound, hnd, hsorted, hlen⟩ := normalizeEventFeed_facts env raw opts
  set out1 := normalizeEventFeed env raw opts with hout1
  set rt : EventItem → EventItem :=
    fun e => (adaptRawEvent env (eventToJVal e) opts.toAdapt).getD e with hrt
  have hrt_spec : ∀ e ∈ out1,
      adaptRawEvent env (eventToJVal e) opts.toAdapt = some (rt e) ∧
      (rt e).id = e.id ∧ (rt e).detected_at = e.detected_at ∧
      (rt e).ingested_at = e.ingested_at := by
    intro e he
    obtain ⟨v, hv, hadapt⟩ := List.mem_filterMap.mp (hsound e he)
    obtain ⟨h1, h2, h3⟩ := adaptRawEvent_inv hadapt
    obtain ⟨c, hcx, hcy⟩ := adaptRawEvent_shape hadapt
    have hb := snap_bounds env c e.zone_id
    obtain ⟨f, hf, hf1, hf2, hf3⟩ := adapt_roundtrip opts.toAdapt h1 h2 h3
      (hcx ▸ hb.1) (hcy ▸ hb.2)
    have hfe : rt e = f := by
      rw [hrt]
      simp [hf]
    rw [hfe]
    exact ⟨hf, hf1, hf2, hf3⟩
  have hnormalized2 : (out1.map eventToJVal).filterMap
      (fun v => adaptRawEvent env v opts.toAdapt) = out1.map rt := by
    rw [List.filterMap_map]
    refine filterMap_eq_map_of ?_
    intro a ha
    exact (hrt_spec a ha).1
  have hids2 : (out1.map rt).map EventItem.id = out1.map EventItem.id := by
    rw [List.map_map]
    apply List.map_congr_left
    intro e he
    exact (hrt_spec e he).2.1
  have hnd2 : ((out1.map rt).map EventItem.id).Nodup := by
    rw [hids2]
    exact hnd
  have hdedup2 : dedupNewer (out1.map rt) =
      (out1.map rt).map (fun e => (e.id, e)) := dedupNewer_noop hnd2
  have hsorted2 : (out1.map rt).Pairwise (fun a b => feedLE a b = true) := by
    rw [List.pairwise_map]
    refine List.Pairwise.imp_of_mem ?_ hsorted
    intro a b ha hb hab
    have sa := hrt_spec a ha
    have sb := hrt_spec b hb
    rw [feedLE_congr sa.2.1 sa.2.2.1 sa.2.2.2 sb.2.1 sb.2.2.1 sb.2.2.2]
    exact hab
  have hsort_eq : (out1.map rt).mergeSort feedLE = out1.map rt :=
    List.mergeSort_of_sorted hsorted2
  have hlen2 : (out1.map rt).length ≤ sliceCount (safeMaxEvents opts) := by
    rw [List.length_map]
    exact hlen
  have hout2 : normalizeEventFeed env (out1.map eventToJVal) opts =
      out1.map rt := by
    have h0 : normalizeEventFeed env (out1.map eventToJVal) opts =
        (((dedupNewer ((out1.map eventToJVal).filterMap
            (fun v => adaptRawEvent env v opts.toAdapt))).map
          Prod.snd).mergeSort feedLE).take
          (sliceCount (safeMaxEvents opts)) := rfl
    rw [h0, hnormalized2, hdedup2, List.map_map]
    rw [show (Prod.snd ∘ fun e : EventItem => (e.id, e)) = id from rfl,
      List.map_id]
    rw [hsort_eq]
    exact List.take_of_length_le hlen2
  rw [hout2, List.map_map]
  apply List.map_congr_left
  intro e he
  have s := hrt_spec e he
  show (((rt e).id, (rt e).detected_at, (rt e).ingested_at)) =
    (e.id, e.detected_at, e.ingested_at)
  rw [s.2.1, s.2.2.1, s.2.2.2]

/-- The options of the C5 counterexample. -/
def optsC5 : NormalizeOptions := { maxEvents := 100 }

/-- A record like recC1 but carrying a "status" key, the source of the
event's raw_status field. -/
def recC5 : JVal :=
  JVal.obj [("id", JVal.str "e1"), ("ts", JVal.num 1700000000000),
    ("x", JVal.num (1/2)), ("y", JVal.num (1/2)),
    ("status", JVal.str "open")]

/-- The event recC5 normalizes to: evC1 with its raw status kept. -/
def evC5 : EventItem := { evC1 with raw_status := some "open" }

set_option maxHeartbeats 2000000 in
/-- recC5 is accepted in env0 and normalizes to evC5. -/
theorem adaptRawEvent_recC5 :
    adaptRawEvent env0 recC5 optsC5.toAdapt = some evC5 := by
  simp [adaptRawEvent, asRecord, recC5, env0, evC5, evC1, optsC5,
    NormalizeOptions.toAdapt, pickValue, readPath,
    readPathVal, lookupLast, parseId, jsTrim, jsTrimList, jsToLower,
    Char.isWhitespace, parseEpochMs, epochDispatch, normalizeEpoch, jsRound,
    MIN_VALID_EPOCH_MS, MAX_FUTURE_DRIFT_MS, parseNumber, parseText,
    resolveEventType, normalizeType, normalizeSeverity, severityDefault,
    normalizeConfidence, normalizeSource, normalizeIncidentStatus,
    extractCoordinates, normalizeCoordinate, extractWorldCoordinates,
    extractBBoxCoordinates, parseBBox, mapBBoxWithCameraCalibration,
    normalizeCameraKey, bboxPaths, frameWidthPaths, frameHeightPaths,
    worldXPaths, worldZPaths, xPaths, yPaths, zoneIdPaths, zoneCentroid,
    cameraIdPaths, trackIdPaths, explicitIdPaths, detectedAtPaths,
    buildZoneCentroids, resolveZoneId, zoneGeometries, buildZoneGeometries,
    zoneIdsHas, genericZoneIdsHas, nearestZoneByCentroid, jsMap, jsMapUpsert,
    jsMapGet, snapCoordinatesToFloor, zoneGeometryById, offAllHoles,
    allHolesNorm, allHoleBounds, pointInBounds, pointInPolygon, clampRange,
    HOLE_PADDING_NORM, ZONE_EDGE_PADDING_NORM, extractNote, jsIncludes,
    pointInZoneWalkable, polygonBounds, boundsInf, pairOf, List.findSome?]
  norm_num [env0]

set_option maxHeartbeats 4000000 in
/-- Re-adapting the event object of evC5 loses the raw status: the
result is exactly evC1 (raw_status none), because the event object
carries the key "raw_status", which no candidate path of the status
lookup ("status", "state", "event_status", ...) names. -/
theorem adaptRawEvent_evC5_again :
    adaptRawEvent env0 (eventToJVal evC5) optsC5.toAdapt = some evC1 := by
  simp [adaptRawEvent, asRecord, eventToJVal, eventFields, evC5, evC1,
    optsC5, NormalizeOptions.toAdapt, optStr, optNum, eventTypeStr,
    incidentStatusStr, eventSourceStr, pickValue, readPath,
    readPathVal, lookupLast, parseId, jsTrim, jsTrimList, jsToLower,
    Char.isWhitespace, parseEpochMs, epochDispatch, normalizeEpoch, jsRound,
    MIN_VALID_EPOCH_MS, MAX_FUTURE_DRIFT_MS, parseNumber, parseText,
    resolveEventType, normalizeType, normalizeSeverity, severityDefault,
    normalizeConfidence, normalizeSource, normalizeIncidentStatus,
    extractCoordinates, normalizeCoordinate, extractWorldCoordinates,
    extractBBoxCoordinates, parseBBox, mapBBoxWithCameraCalibration,
    normalizeCameraKey, bboxPaths, frameWidthPaths, frameHeightPaths,
    worldXPaths, worldZPaths, xPaths, yPaths, zoneIdPaths, zoneCentroid,
    cameraIdPaths, trackIdPaths, explicitIdPaths, detectedAtPaths,
    buildZoneCentroids, resolveZoneId, zoneGeometries, buildZoneGeometries,
    zoneIdsHas, genericZoneIdsHas, nearestZoneByCentroid, jsMap, jsMapUpsert,
    jsMapGet, snapCoordinatesToFloor, zoneGeometryById, offAllHoles,
    allHolesNorm, allHoleBounds, pointInBounds, pointInPolygon, clampRange,
    HOLE_PADDING_NORM, ZONE_EDGE_PADDING_NORM, extractNote, jsIncludes,
    pointInZoneWalkable, polygonBounds, boundsInf, pairOf, List.findSome?]
  norm_num [env0]

/-- A one-record feed is the one adapted event. -/
theorem feed_singleton {env : Env} {v : JVal} {opts : NormalizeOptions}
    {e : EventItem} (h : adaptRawEvent env v opts.toAdapt = some e)
    (hcount : 1 ≤ sliceCount (safeMaxEvents opts)) :
    normalizeEventFeed env [v] opts = [e] := by
  have h0 : normalizeEventFeed env [v] opts =
      (((dedupNewer ([v].filterMap
          (fun x => adaptRawEvent env x opts.toAdapt))).map
        Prod.snd).mergeSort feedLE).take (sliceCount (safeMaxEvents opts)) :=
    rfl
  rw [h0]
  rw [show [v].filterMap (fun x => adaptRawEvent env x opts.toAdapt) = [e] by
    simp [h]]
  rw [show dedupNewer [e] = [(e.id, e)] by
    unfold dedupNewer
    simp [jsMapGet, jsMapUpsert]]
  rw [show ([(e.id, e)].map Prod.snd) = [e] from rfl]
  rw [List.mergeSort_singleton]
  cases hc : sliceCount (safeMaxEvents opts) with
  | zero => rw [hc] at hcount; omega
  | succ n => simp

theorem sliceC5 : sliceCount (safeMaxEvents optsC5) = 100 := by
  have h1 : safeMaxEvents optsC5 = 100 := by
    unfold safeMaxEvents optsC5
    norm_num
  rw [sliceCount, h1]
  norm_num
  rfl

/-- C5 counterexample: the single-record feed [recC5] yields an event
with raw_status "open"; re-normalizing the feed's own output yields the
same id but raw_status null — the output sets differ field-wise, so the
claimed full idempotence fails. -/
theorem C5_counterexample :
    normalizeEventFeed env0 [recC5] optsC5 = [evC5] ∧
    normalizeEventFeed env0
      ((normalizeEventFeed env0 [recC5] optsC5).map eventToJVal) optsC5 =
      [evC1] ∧
    evC5.raw_status = some "open" ∧
    evC1.raw_status = none ∧
    evC1.id = evC5.id ∧
    [evC1] ≠ [evC5] := by
  have hr1 : normalizeEventFeed env0 [recC5] optsC5 = [evC5] :=
    feed_singleton adaptRawEvent_recC5 (by rw [sliceC5]; omega)
  refine ⟨hr1, ?_, rfl, rfl, rfl, ?_⟩
  · rw [hr1]
    exact feed_singleton adaptRawEvent_evC5_again (by rw [sliceC5]; omega)
  · intro h
    have h2 : evC1 = evC5 := by injection h
    have h3 := congrArg EventItem.raw_status h2
    simp [evC1, evC5] at h3

end TwinCity
